import Mathlib

/-!
E91 quantum key distribution simulation (`src/e91/e91.cpp`).

A shallow embedding of the class `E91Protocol` and a verification of its
measurement and statistics engine.

Modelling conventions.

* `idx` (an unsigned 64-bit integer) is `Nat`.  The only arithmetic the program
  does on `idx` values is `++` on counters that never exceed the loop index
  (itself below `n_pairs`, an `idx`), and `1 - alice_result` with
  `alice_result ∈ {0, 1}`; none of it can wrap.
* `std::vector<T>` is `List T`; `push_back x` is `· ++ [x]`; the unchecked
  `v[i]` is `v[i]?`, so that a read outside the vector makes the enclosing
  operation return `none`.
* A `double` is read as the real number it denotes.  The statistics, which are
  quotients of counters, are computed exactly in `ℚ`; a quotient whose divisor
  is zero has no value (`none`).  In the generator every arithmetic operation
  is followed by the rounding of `DoubleArith`, so that its comparisons see
  the `double` values the program computes.
* `std::mt19937` and the standard distributions are library code; they are a
  parameter (`RandomSource`) of the generator.
* The class has no `throw`; the one exception its code can meet is the
  `std::length_error` of `reserve`, and the constructor call that may meet it
  returns `Except`.  Memory exhaustion is not modelled.
* Console output is not modelled.
-/

namespace E91

/-! ## Data model -/

/-- The random generator and the distributions drawn from it.  `seed` is
`std::mt19937(seed)`, `uniform_int lo hi` is one draw of
`std::uniform_int_distribution<idx>(lo, hi)` and `uniform_real` one draw of
`std::uniform_real_distribution<double>(0.0, 1.0)`; each draw returns the value
and the advanced generator state. -/
structure RandomSource (σ : Type) where
  seed : Nat → σ
  uniform_int : Nat → Nat → σ → Nat × σ
  uniform_real : σ → ℝ × σ

/-- The private data members of `class E91Protocol` (lines 23-29). -/
structure E91Protocol (σ : Type) where
  rng : σ
  n_pairs : Nat
  alice_bases : List Nat
  bob_bases : List Nat
  alice_results : List Nat
  bob_results : List Nat
  shared_key : List Bool

/-- The constructor (lines 35-41): seeds the generator, stores the pair count
and leaves every vector empty (`reserve` changes no contents).  This is the
object the constructor returns; `construct_call` adds the case in which a
`reserve` throws. -/
def E91Protocol.construct {σ : Type} (R : RandomSource σ) (num_pairs seed : Nat) :
    E91Protocol σ :=
  { rng := R.seed seed
    n_pairs := num_pairs
    alice_bases := []
    bob_bases := []
    alice_results := []
    bob_results := []
    shared_key := [] }

/-- The four local counters and `total` of `calculate_correlation`
(lines 142-143). -/
structure Counts where
  count_00 : Nat
  count_01 : Nat
  count_10 : Nat
  count_11 : Nat
  total : Nat
deriving DecidableEq

/-! ## Control and expression helpers -/

/-- The loop `for (idx i = 0; i < n; ++i) body`, with a body that may fail. -/
def for_loop {α : Type} (n : Nat) (body : Nat → α → Option α) (start : α) : Option α :=
  (List.range n).foldlM (fun acc i => body i acc) start

/-- The expression `v[i] == k`. -/
def at_eq (v : List Nat) (i k : Nat) : Option Bool :=
  (v[i]?).map (fun x => x == k)

/-- The expression `v[i] == w[i]` (left operand read first). -/
def at_eq_at (v w : List Nat) (i : Nat) : Option Bool :=
  (v[i]?).bind (fun x => (w[i]?).map (fun y => x == y))

/-- The short-circuit `p && q`: `q` is consulted only when `p` is true. -/
def and_then (p q : Option Bool) : Option Bool :=
  p.bind (fun b => if b then q else some false)

/-- The quotient `static_cast<double>(count) / total`; it has no value when
`total` is zero. -/
def double_div (count total : Nat) : Option ℚ :=
  if total = 0 then none else some ((count : ℚ) / (total : ℚ))

/-! ## `sift_key` (lines 87-108) -/

/-- One iteration of the loop of `sift_key` (lines 95-98) on the pair
`(shared_key, matching_count)`. -/
def sift_key_body {σ : Type} (s : E91Protocol σ) (i : Nat) (acc : List Bool × Nat) :
    Option (List Bool × Nat) := do
  if (← at_eq_at s.alice_bases s.bob_bases i) then
    let bit ← at_eq s.alice_results i 1
    pure (acc.1 ++ [bit], acc.2 + 1)
  else
    pure acc

/-- The body of `sift_key` after `shared_key.clear()`: the final
`(shared_key, matching_count)`. -/
def sift_key_loop {σ : Type} (s : E91Protocol σ) : Option (List Bool × Nat) :=
  for_loop s.n_pairs (sift_key_body s) ([], 0)

/-- The state after `sift_key()`. -/
def sift_key {σ : Type} (s : E91Protocol σ) : Option (E91Protocol σ) :=
  (sift_key_loop s).map (fun r => { s with shared_key := r.1 })

/-- The value of `matching_count` that `sift_key` prints (line 103). -/
def sift_key_matching_count {σ : Type} (s : E91Protocol σ) : Option Nat :=
  (sift_key_loop s).map (fun r => r.2)

/-! ## `calculate_correlation` (lines 141-169) and `perform_bell_test` (110-139) -/

/-- The if/else chain of lines 148-155 on the counters. -/
def count_outcomes {σ : Type} (s : E91Protocol σ) (i : Nat) (c : Counts) : Option Counts := do
  if (← and_then (at_eq s.alice_results i 0) (at_eq s.bob_results i 0)) then
    pure { c with count_00 := c.count_00 + 1 }
  else if (← and_then (at_eq s.alice_results i 0) (at_eq s.bob_results i 1)) then
    pure { c with count_01 := c.count_01 + 1 }
  else if (← and_then (at_eq s.alice_results i 1) (at_eq s.bob_results i 0)) then
    pure { c with count_10 := c.count_10 + 1 }
  else
    pure { c with count_11 := c.count_11 + 1 }

/-- One iteration of the loop of `calculate_correlation` (lines 146-157). -/
def calculate_correlation_body {σ : Type} (s : E91Protocol σ)
    (alice_angle_idx bob_angle_idx : Nat) (i : Nat) (c : Counts) : Option Counts := do
  if (← and_then (at_eq s.alice_bases i alice_angle_idx)
        (at_eq s.bob_bases i bob_angle_idx)) then
    let c1 ← count_outcomes s i c
    pure { c1 with total := c1.total + 1 }
  else
    pure c

/-- The counters after the loop of `calculate_correlation` (lines 142-158). -/
def calculate_correlation_loop {σ : Type} (s : E91Protocol σ)
    (alice_angle_idx bob_angle_idx : Nat) : Option Counts :=
  for_loop s.n_pairs (calculate_correlation_body s alice_angle_idx bob_angle_idx)
    ⟨0, 0, 0, 0, 0⟩

/-- The result of `calculate_correlation(alice_angle_idx, bob_angle_idx)`. -/
def calculate_correlation {σ : Type} (s : E91Protocol σ)
    (alice_angle_idx bob_angle_idx : Nat) : Option ℚ := do
  let c ← calculate_correlation_loop s alice_angle_idx bob_angle_idx
  if c.total = 0 then
    pure 0
  else
    let p00 ← double_div c.count_00 c.total
    let p01 ← double_div c.count_01 c.total
    let p10 ← double_div c.count_10 c.total
    let p11 ← double_div c.count_11 c.total
    pure (p00 + p11 - p01 - p10)

/-- The result `S` of `perform_bell_test()`. -/
def perform_bell_test {σ : Type} (s : E91Protocol σ) : Option ℚ := do
  let E_ab ← calculate_correlation s 0 1
  let E_ab_prime ← calculate_correlation s 0 2
  let E_a_prime_b ← calculate_correlation s 2 1
  let E_a_prime_b_prime ← calculate_correlation s 2 2
  pure |E_ab - E_ab_prime + E_a_prime_b + E_a_prime_b_prime|

/-! ## `estimate_error_rate` (lines 171-190) -/

/-- One iteration of the loop of `estimate_error_rate` (lines 176-181) on the
pair `(matching_pairs, total_same_basis)`. -/
def estimate_error_rate_body {σ : Type} (s : E91Protocol σ) (i : Nat) (acc : Nat × Nat) :
    Option (Nat × Nat) := do
  if (← at_eq_at s.alice_bases s.bob_bases i) then
    if (← at_eq_at s.alice_results s.bob_results i) then
      pure (acc.1 + 1, acc.2 + 1)
    else
      pure (acc.1, acc.2 + 1)
  else
    pure acc

/-- The pair `(matching_pairs, total_same_basis)` after the loop. -/
def estimate_error_rate_loop {σ : Type} (s : E91Protocol σ) : Option (Nat × Nat) :=
  for_loop s.n_pairs (estimate_error_rate_body s) (0, 0)

/-- The result of `estimate_error_rate()`. -/
def estimate_error_rate {σ : Type} (s : E91Protocol σ) : Option ℚ := do
  let r ← estimate_error_rate_loop s
  if r.2 = 0 then
    pure 0
  else
    let q ← double_div r.1 r.2
    pure (1 - q)

/-! ## The generator: `measure_bell_pair` (65-85) and `run_protocol` (43-63) -/

/-- The double-precision arithmetic the generator runs on.  A `double` is read
as the real number it denotes.  `round` sends the exact result of an
arithmetic operation to the `double` that the operation returns, `cos` is
`std::cos` on a `double` and `pi` is the constant `M_PI`.  The two laws hold in
IEEE 754 arithmetic and in every C library: zero is a `double`, and
`cos(0.0)` is `1.0`. -/
structure DoubleArith where
  round : ℝ → ℝ
  cos : ℝ → ℝ
  pi : ℝ
  round_zero : round 0 = 0
  cos_zero : cos 0 = 1

/-- Arithmetic without rounding error: every result is kept exactly. -/
noncomputable def exact_arith : DoubleArith where
  round := fun x => x
  cos := Real.cos
  pi := Real.pi
  round_zero := rfl
  cos_zero := Real.cos_zero

/-- The member `measurement_angles` (lines 31-32):
`{0.0, M_PI / 8, M_PI / 4, 3 * M_PI / 8}`. -/
noncomputable def measurement_angles (D : DoubleArith) : List ℝ :=
  [0, D.round (D.pi / 8), D.round (D.pi / 4), D.round (D.round (3 * D.pi) / 8)]

/-- The local `correlation` of `measure_bell_pair` (lines 66-70). -/
noncomputable def model_correlation (D : DoubleArith) (alice_basis bob_basis : Nat) :
    Option ℝ := do
  let alice_angle ← (measurement_angles D)[alice_basis]?
  let bob_angle ← (measurement_angles D)[bob_basis]?
  let angle_diff := D.round (alice_angle - bob_angle)
  pure (-D.cos (D.round (2 * angle_diff)))

/-- The outcomes computed by `measure_bell_pair` from its two uniform draws
`u1` (line 74) and `u2` (line 78). -/
noncomputable def bell_pair_outcomes (D : DoubleArith) (correlation u1 u2 : ℝ) : Nat × Nat :=
  let alice_result : Nat := if u1 < 0.5 then 0 else 1
  let prob_same := D.round (D.round (1 + correlation) / 2)
  let bob_result : Nat := if u2 < prob_same then alice_result else 1 - alice_result
  (alice_result, bob_result)

/-- The call `measure_bell_pair(alice_basis, bob_basis)` from generator state
`g`: the pair of outcomes and the generator state after the two draws. -/
noncomputable def measure_bell_pair {σ : Type} (D : DoubleArith) (R : RandomSource σ) (g : σ)
    (alice_basis bob_basis : Nat) : Option ((Nat × Nat) × σ) := do
  let correlation ← model_correlation D alice_basis bob_basis
  let d1 := R.uniform_real g
  let d2 := R.uniform_real d1.2
  pure (bell_pair_outcomes D correlation d1.1 d2.1, d2.2)

/-- One iteration of the loop of `run_protocol` (lines 53-61). -/
noncomputable def run_protocol_body {σ : Type} (D : DoubleArith) (R : RandomSource σ)
    (_i : Nat) (s : E91Protocol σ) : Option (E91Protocol σ) := do
  let a := R.uniform_int 0 2 s.rng
  let b := R.uniform_int 1 3 a.2
  let results ← measure_bell_pair D R b.2 a.1 b.1
  pure { s with
    rng := results.2
    alice_bases := s.alice_bases ++ [a.1]
    bob_bases := s.bob_bases ++ [b.1]
    alice_results := s.alice_results ++ [results.1.1]
    bob_results := s.bob_results ++ [results.1.2] }

/-- The state after `run_protocol()`. -/
noncomputable def run_protocol {σ : Type} (D : DoubleArith) (R : RandomSource σ)
    (s : E91Protocol σ) : Option (E91Protocol σ) :=
  for_loop s.n_pairs (run_protocol_body D R) s

/-! ## Trial histories -/

/-- The four history vectors hold one entry per pair: every read `v[i]` with
`i < n_pairs` is inside its vector. -/
def complete_history {σ : Type} (s : E91Protocol σ) : Prop :=
  s.alice_bases.length = s.n_pairs ∧ s.bob_bases.length = s.n_pairs ∧
  s.alice_results.length = s.n_pairs ∧ s.bob_results.length = s.n_pairs

/-- A state over the trivial generator, for the statistics, which never draw. -/
def history (alice_bases bob_bases alice_results bob_results : List Nat) : E91Protocol Unit :=
  { rng := ()
    n_pairs := alice_bases.length
    alice_bases := alice_bases
    bob_bases := bob_bases
    alice_results := alice_results
    bob_results := bob_results
    shared_key := [] }

/-- Alice's basis in trial `i`. -/
def alice_basis_of {σ : Type} (s : E91Protocol σ) (i : Nat) : Nat := s.alice_bases.getD i 0

/-- Bob's basis in trial `i`. -/
def bob_basis_of {σ : Type} (s : E91Protocol σ) (i : Nat) : Nat := s.bob_bases.getD i 0

/-- Alice's outcome in trial `i`. -/
def alice_outcome_of {σ : Type} (s : E91Protocol σ) (i : Nat) : Nat := s.alice_results.getD i 0

/-- Bob's outcome in trial `i`. -/
def bob_outcome_of {σ : Type} (s : E91Protocol σ) (i : Nat) : Nat := s.bob_results.getD i 0

/-- Trial `i` is a same-basis trial. -/
def same_basis {σ : Type} (s : E91Protocol σ) (i : Nat) : Bool :=
  alice_basis_of s i == bob_basis_of s i

/-- The number of trials of the history that satisfy `p`. -/
def count_trials {σ : Type} (s : E91Protocol σ) (p : Nat → Bool) : Nat :=
  (List.range s.n_pairs).countP p

/-- Trial `i` is a same-basis trial whose two outcomes are equal. -/
def same_basis_agree {σ : Type} (s : E91Protocol σ) (i : Nat) : Bool :=
  same_basis s i && (alice_outcome_of s i == bob_outcome_of s i)

/-- Trial `i` is a same-basis trial whose two outcomes differ. -/
def same_basis_differ {σ : Type} (s : E91Protocol σ) (i : Nat) : Bool :=
  same_basis s i && !(alice_outcome_of s i == bob_outcome_of s i)

/-- Trial `i` has Alice basis `a` and Bob basis `b`. -/
def basis_pair {σ : Type} (s : E91Protocol σ) (a b i : Nat) : Bool :=
  alice_basis_of s i == a && bob_basis_of s i == b

/-- Trial `i` has Alice outcome `x` and Bob outcome `y`. -/
def outcome_pair {σ : Type} (s : E91Protocol σ) (x y i : Nat) : Bool :=
  alice_outcome_of s i == x && bob_outcome_of s i == y

/-- Trial `i` has bases `(a, b)` and outcomes `(x, y)`. -/
def basis_outcome {σ : Type} (s : E91Protocol σ) (a b x y i : Nat) : Bool :=
  basis_pair s a b i && outcome_pair s x y i

/-- Trial `i` has bases `(a, b)` and outcomes other than `(0,0)`, `(0,1)` and
`(1,0)`: the trials that reach the final `else` of line 154. -/
def basis_rest {σ : Type} (s : E91Protocol σ) (a b i : Nat) : Bool :=
  basis_pair s a b i &&
    !(outcome_pair s 0 0 i || outcome_pair s 0 1 i || outcome_pair s 1 0 i)

/-- Every recorded outcome is `0` or `1`. -/
def binary_outcomes {σ : Type} (s : E91Protocol σ) : Prop :=
  ∀ i, i < s.n_pairs → alice_outcome_of s i ≤ 1 ∧ bob_outcome_of s i ≤ 1

instance binary_outcomes_decidable {σ : Type} (s : E91Protocol σ) :
    Decidable (binary_outcomes s) := by
  unfold binary_outcomes
  infer_instance

instance complete_history_decidable {σ : Type} (s : E91Protocol σ) :
    Decidable (complete_history s) := by
  unfold complete_history
  infer_instance

/-- A history of six trials: bases `(1,1) (2,3) (0,1) (2,2) (2,2) (0,2)`,
outcomes `(1,0) (0,1) (0,1) (0,0) (1,0) (1,1)`. -/
def sample_history : E91Protocol Unit :=
  history [1, 2, 0, 2, 2, 0] [1, 3, 1, 2, 2, 2] [1, 0, 0, 0, 1, 1] [0, 1, 1, 0, 0, 1]

/-- The CHSH combination `|E(0,1) - E(0,b) + E(2,1) + E(2,b)|` of the
correlation `model_correlation` of the generator, with Alice's settings `0` and
`2`, Bob's first setting `1` and Bob's second setting `b`. -/
noncomputable def model_chsh_with (D : DoubleArith) (bob_second : Nat) : Option ℝ := do
  let E_ab ← model_correlation D 0 1
  let E_ab_prime ← model_correlation D 0 bob_second
  let E_a_prime_b ← model_correlation D 2 1
  let E_a_prime_b_prime ← model_correlation D 2 bob_second
  pure |E_ab - E_ab_prime + E_a_prime_b + E_a_prime_b_prime|

/-- The CHSH combination `|E(0,1) - E(0,2) + E(2,1) + E(2,2)|` of
`perform_bell_test` (lines 114-124), formed with the correlation
`model_correlation` of the generator in place of the measured one. -/
noncomputable def model_chsh (D : DoubleArith) : Option ℝ := do
  let E_ab ← model_correlation D 0 1
  let E_ab_prime ← model_correlation D 0 2
  let E_a_prime_b ← model_correlation D 2 1
  let E_a_prime_b_prime ← model_correlation D 2 2
  pure |E_ab - E_ab_prime + E_a_prime_b + E_a_prime_b_prime|

/-- A random source that reads its draws off the decimal digits of the seed,
lowest digit first: an integer draw in `[lo, hi]` is `lo + d % (hi - lo + 1)`
and a real draw is `(d % 4) / 4`, for the next digit `d`. -/
noncomputable def digit_source : RandomSource Nat where
  seed := fun n => n
  uniform_int := fun lo hi g => (lo + (g % 10) % (hi - lo + 1), g / 10)
  uniform_real := fun g => ((((g % 10) % 4 : Nat) : ℝ) / 4, g / 10)

/-- The contract of `std::uniform_int_distribution<idx>(lo, hi)`: every draw
lies in the closed range `[lo, hi]`. -/
def int_draws_in_range {σ : Type} (R : RandomSource σ) : Prop :=
  ∀ lo hi g, lo ≤ hi → lo ≤ (R.uniform_int lo hi g).1 ∧ (R.uniform_int lo hi g).1 ≤ hi

/-- The contract of `std::uniform_real_distribution<double>(0.0, 1.0)`: every
draw lies in `[0, 1)`. -/
def real_draws_in_unit {σ : Type} (R : RandomSource σ) : Prop :=
  ∀ g, 0 ≤ (R.uniform_real g).1 ∧ (R.uniform_real g).1 < 1

/-- The first `k` trials of `t` were recorded by `run_protocol` on an object
with pair count `n`: the four vectors have `k` entries, the bases lie in the
ranges of their distributions, the outcomes are binary, and (when the real
draws are non-negative) equal bases come with opposite outcomes. -/
def generated_upto {σ : Type} (R : RandomSource σ) (n k : Nat) (t : E91Protocol σ) : Prop :=
  t.n_pairs = n ∧ t.shared_key = [] ∧
  t.alice_bases.length = k ∧ t.bob_bases.length = k ∧
  t.alice_results.length = k ∧ t.bob_results.length = k ∧
  ∀ i, i < k →
    alice_basis_of t i ≤ 2 ∧ 1 ≤ bob_basis_of t i ∧ bob_basis_of t i ≤ 3 ∧
    alice_outcome_of t i ≤ 1 ∧ bob_outcome_of t i ≤ 1 ∧
    (real_draws_in_unit R → alice_basis_of t i = bob_basis_of t i →
      bob_outcome_of t i = 1 - alice_outcome_of t i)

/-- One record of the trial history (spec section 3, `TrialRecord`). -/
structure TrialRecord where
  aliceBasis : Nat
  bobBasis : Nat
  aliceOutcome : Nat
  bobOutcome : Nat

/-- The trial that the PairGenerator of the spec (section 4.1) makes from the
generator state `g`, with the generator state it leaves: Alice's basis from
`{0,1,2}`, Bob's basis from `{1,2,3}`, Alice's outcome a fair coin, Bob's
outcome equal to Alice's with probability `(1 + correlation) / 2` where
`correlation = -cos(2 * angleDiff)`, the four draws taken in the order of
section 5. -/
noncomputable def generate_trial {σ : Type} (D : DoubleArith) (R : RandomSource σ) (g : σ) :
    TrialRecord × σ :=
  let aliceDraw := R.uniform_int 0 2 g
  let bobDraw := R.uniform_int 1 3 aliceDraw.2
  let coin := R.uniform_real bobDraw.2
  let flip := R.uniform_real coin.2
  let angleDiff := D.round ((measurement_angles D).getD aliceDraw.1 0 -
    (measurement_angles D).getD bobDraw.1 0)
  let correlation := -D.cos (D.round (2 * angleDiff))
  let aliceOutcome : Nat := if coin.1 < 0.5 then 0 else 1
  let bobOutcome : Nat :=
    if flip.1 < D.round (D.round (1 + correlation) / 2) then aliceOutcome
    else 1 - aliceOutcome
  (⟨aliceDraw.1, bobDraw.1, aliceOutcome, bobOutcome⟩, flip.2)

/-- The contract `generate(numPairs, randomSource)` of the spec (section 4.1):
the sequence of `numPairs` trials made one after the other from the generator
state `g`. -/
noncomputable def generate {σ : Type} (D : DoubleArith) (R : RandomSource σ) :
    Nat → σ → List TrialRecord
  | 0, _ => []
  | n + 1, g => (generate_trial D R g).1 :: generate D R n (generate_trial D R g).2

/-- A member function in execution: the object it runs on and its local
variables. -/
structure Activation (σ : Type) (L : Type) where
  self : E91Protocol σ
  locals : L

/-- The if/else chain of lines 148-155 executed by the running function: the
outcomes are read from the object, one local counter is incremented. -/
def count_outcomes_step {σ : Type} (i : Nat) (st : Activation σ Counts) :
    Option (Activation σ Counts) := do
  if (← and_then (at_eq st.self.alice_results i 0) (at_eq st.self.bob_results i 0)) then
    pure { st with locals := { st.locals with count_00 := st.locals.count_00 + 1 } }
  else if (← and_then (at_eq st.self.alice_results i 0) (at_eq st.self.bob_results i 1)) then
    pure { st with locals := { st.locals with count_01 := st.locals.count_01 + 1 } }
  else if (← and_then (at_eq st.self.alice_results i 1) (at_eq st.self.bob_results i 0)) then
    pure { st with locals := { st.locals with count_10 := st.locals.count_10 + 1 } }
  else
    pure { st with locals := { st.locals with count_11 := st.locals.count_11 + 1 } }

/-- One iteration of the loop of `calculate_correlation` (lines 146-157)
executed by the running function: the bases are read from the object the
function runs on, the assignments go to its local counters. -/
def calculate_correlation_step {σ : Type} (alice_angle_idx bob_angle_idx : Nat) (i : Nat)
    (st : Activation σ Counts) : Option (Activation σ Counts) := do
  if (← and_then (at_eq st.self.alice_bases i alice_angle_idx)
        (at_eq st.self.bob_bases i bob_angle_idx)) then
    let st1 ← count_outcomes_step i st
    pure { st1 with locals := { st1.locals with total := st1.locals.total + 1 } }
  else
    pure st

/-- The call `calculate_correlation(a, b)` on the object `s` (lines 141-169):
the returned value and the object in which the run of the body ends. -/
def calculate_correlation_call {σ : Type} (s : E91Protocol σ) (a b : Nat) :
    Option (ℚ × E91Protocol σ) := do
  let st ← for_loop s.n_pairs (calculate_correlation_step a b) ⟨s, ⟨0, 0, 0, 0, 0⟩⟩
  if st.locals.total = 0 then
    pure (0, st.self)
  else
    let p00 ← double_div st.locals.count_00 st.locals.total
    let p01 ← double_div st.locals.count_01 st.locals.total
    let p10 ← double_div st.locals.count_10 st.locals.total
    let p11 ← double_div st.locals.count_11 st.locals.total
    pure (p00 + p11 - p01 - p10, st.self)

/-- The call `perform_bell_test()` on the object `s` (lines 110-139): each of
the four calls of `calculate_correlation` runs on the object the previous one
left, and the object returned is the one the last call left. -/
def perform_bell_test_call {σ : Type} (s : E91Protocol σ) : Option (ℚ × E91Protocol σ) := do
  let r1 ← calculate_correlation_call s 0 1
  let r2 ← calculate_correlation_call r1.2 0 2
  let r3 ← calculate_correlation_call r2.2 2 1
  let r4 ← calculate_correlation_call r3.2 2 2
  pure (|r1.1 - r2.1 + r3.1 + r4.1|, r4.2)

/-- One iteration of the loop of `estimate_error_rate` (lines 176-181)
executed by the running function, on the locals
`(matching_pairs, total_same_basis)`. -/
def estimate_error_rate_step {σ : Type} (i : Nat) (st : Activation σ (Nat × Nat)) :
    Option (Activation σ (Nat × Nat)) := do
  if (← at_eq_at st.self.alice_bases st.self.bob_bases i) then
    if (← at_eq_at st.self.alice_results st.self.bob_results i) then
      pure { st with locals := (st.locals.1 + 1, st.locals.2 + 1) }
    else
      pure { st with locals := (st.locals.1, st.locals.2 + 1) }
  else
    pure st

/-- The call `estimate_error_rate()` on the object `s` (lines 171-190): the
returned value and the object in which the run of the body ends. -/
def estimate_error_rate_call {σ : Type} (s : E91Protocol σ) : Option (ℚ × E91Protocol σ) := do
  let st ← for_loop s.n_pairs estimate_error_rate_step ⟨s, (0, 0)⟩
  if st.locals.2 = 0 then
    pure (0, st.self)
  else
    let q ← double_div st.locals.1 st.locals.2
    pure (1 - q, st.self)

/-- The history with one agreeing trial for each of the basis pairs `(0,1)`,
`(2,1)`, `(2,2)` and one disagreeing trial for `(0,2)`. -/
def chsh_extreme_history : E91Protocol Unit :=
  history [0, 0, 2, 2] [1, 2, 1, 2] [1, 0, 0, 1] [1, 1, 0, 1]

/-- The exception classes of `<stdexcept>` that concern the pair count. -/
inductive Thrown where
  | invalid_argument
  | length_error
deriving DecidableEq

/-- The call `v.reserve(n)` on an empty vector whose `max_size()` is `max_size`:
it throws `std::length_error` when `n` exceeds `max_size` and otherwise changes
no contents.  Failure of the allocation itself is not modelled. -/
def reserve (max_size n : Nat) : Except Thrown Unit :=
  if max_size < n then Except.error Thrown.length_error else Except.ok ()

/-- A call of the constructor (lines 35-41) with its four `reserve` calls; the
body has no other statement and validates nothing itself. -/
def construct_call {σ : Type} (max_size : Nat) (R : RandomSource σ) (num_pairs seed : Nat) :
    Except Thrown (E91Protocol σ) := do
  reserve max_size num_pairs
  reserve max_size num_pairs
  reserve max_size num_pairs
  reserve max_size num_pairs
  pure (E91Protocol.construct R num_pairs seed)

/-- The implicit conversion of a signed integer argument to the 64-bit unsigned
`idx`: reduction modulo `2 ^ 64`. -/
def to_idx (v : Int) : Nat := (v % 2 ^ 64).toNat

/-- A call of the constructor with a signed integer as pair count. -/
def construct_signed {σ : Type} (max_size : Nat) (R : RandomSource σ) (v : Int) (seed : Nat) :
    Except Thrown (E91Protocol σ) :=
  construct_call max_size R (to_idx v) seed

/-! ## Loops and reads inside the history -/

theorem for_loop_zero {α : Type} (body : Nat → α → Option α) (start : α) :
    for_loop 0 body start = some start := rfl

theorem for_loop_succ {α : Type} (n : Nat) (body : Nat → α → Option α) (start : α) :
    for_loop (n + 1) body start = (for_loop n body start).bind (body n) := by
  unfold for_loop
  rw [List.range_succ, List.foldlM_append]
  cases List.foldlM (fun acc i => body i acc) start (List.range n) <;> simp

theorem at_eq_inside (v : List Nat) (i k : Nat) (h : i < v.length) :
    at_eq v i k = some (v.getD i 0 == k) := by
  simp [at_eq, List.getD, List.getElem?_eq_getElem h]

theorem at_eq_at_inside (v w : List Nat) (i : Nat) (hv : i < v.length) (hw : i < w.length) :
    at_eq_at v w i = some (v.getD i 0 == w.getD i 0) := by
  simp [at_eq_at, List.getD, List.getElem?_eq_getElem hv, List.getElem?_eq_getElem hw]

/-! ## `sift_key` -/

theorem sift_key_body_inside {σ : Type} (s : E91Protocol σ) (h : complete_history s)
    (i : Nat) (hi : i < s.n_pairs) (acc : List Bool × Nat) :
    sift_key_body s i acc =
      some (if same_basis s i then (acc.1 ++ [alice_outcome_of s i == 1], acc.2 + 1)
        else acc) := by
  obtain ⟨h1, h2, h3, _⟩ := h
  unfold sift_key_body
  rw [at_eq_at_inside _ _ i (h1 ▸ hi) (h2 ▸ hi), at_eq_inside _ i 1 (h3 ▸ hi)]
  unfold same_basis alice_basis_of bob_basis_of alice_outcome_of
  cases s.alice_bases.getD i 0 == s.bob_bases.getD i 0 <;> rfl

theorem sift_key_loop_upto {σ : Type} (s : E91Protocol σ) (h : complete_history s)
    (k : Nat) (hk : k ≤ s.n_pairs) :
    for_loop k (sift_key_body s) ([], 0) =
      some ((((List.range k).filter (same_basis s)).map (fun i => alice_outcome_of s i == 1)),
        (List.range k).countP (same_basis s)) := by
  induction k with
  | zero => rfl
  | succ k ih =>
    rw [for_loop_succ, ih (Nat.le_of_succ_le hk), Option.some_bind,
      sift_key_body_inside s h k hk, List.range_succ]
    cases hb : same_basis s k <;> simp [List.filter_append, List.countP_append, hb]

theorem sift_key_loop_eq {σ : Type} (s : E91Protocol σ) (h : complete_history s) :
    sift_key_loop s =
      some ((((List.range s.n_pairs).filter (same_basis s)).map
          (fun i => alice_outcome_of s i == 1)),
        count_trials s (same_basis s)) :=
  sift_key_loop_upto s h s.n_pairs (Nat.le_refl _)

theorem sift_key_ignores_bob_results {σ : Type} (s : E91Protocol σ) (r : List Nat) :
    sift_key_loop { s with bob_results := r } = sift_key_loop s := rfl

/-- C1: on a complete trial history `sift_key` succeeds and leaves in
`shared_key` exactly the bits `alice_results[i] == 1` of the trials `i` with
`alice_bases[i] == bob_bases[i]`, in trial order; replacing Bob's outcomes by
any other vector leaves the key unchanged. -/
theorem sift_key_keeps_same_basis_bits {σ : Type} (s : E91Protocol σ)
    (h : complete_history s) :
    (sift_key s).map (fun t => t.shared_key) =
        some (((List.range s.n_pairs).filter
            (fun i => alice_basis_of s i == bob_basis_of s i)).map
          (fun i => alice_outcome_of s i == 1)) ∧
      ∀ r : List Nat,
        (sift_key { s with bob_results := r }).map (fun t => t.shared_key) =
          (sift_key s).map (fun t => t.shared_key) := by
  constructor
  · simp only [sift_key, sift_key_loop_eq s h, Option.map_some']
    rfl
  · intro r
    simp only [sift_key, sift_key_ignores_bob_results, Option.map_map]
    rfl

theorem sift_key_keeps_same_basis_bits_witness :
    complete_history sample_history ∧
      ((sift_key sample_history).map (fun t => t.shared_key) =
          some (((List.range sample_history.n_pairs).filter
              (fun i => alice_basis_of sample_history i == bob_basis_of sample_history i)).map
            (fun i => alice_outcome_of sample_history i == 1)) ∧
        ∀ r : List Nat,
          (sift_key { sample_history with bob_results := r }).map (fun t => t.shared_key) =
            (sift_key sample_history).map (fun t => t.shared_key)) :=
  ⟨⟨rfl, rfl, rfl, rfl⟩, sift_key_keeps_same_basis_bits sample_history ⟨rfl, rfl, rfl, rfl⟩⟩

/-! ## `estimate_error_rate` -/

theorem estimate_error_rate_body_inside {σ : Type} (s : E91Protocol σ)
    (h : complete_history s) (i : Nat) (hi : i < s.n_pairs) (acc : Nat × Nat) :
    estimate_error_rate_body s i acc =
      some (if same_basis s i then
          (if alice_outcome_of s i == bob_outcome_of s i then (acc.1 + 1, acc.2 + 1)
            else (acc.1, acc.2 + 1))
        else acc) := by
  obtain ⟨h1, h2, h3, h4⟩ := h
  unfold estimate_error_rate_body
  rw [at_eq_at_inside _ _ i (h1 ▸ hi) (h2 ▸ hi), at_eq_at_inside _ _ i (h3 ▸ hi) (h4 ▸ hi)]
  unfold same_basis alice_basis_of bob_basis_of alice_outcome_of bob_outcome_of
  cases s.alice_bases.getD i 0 == s.bob_bases.getD i 0 <;>
    cases s.alice_results.getD i 0 == s.bob_results.getD i 0 <;> rfl

theorem estimate_error_rate_loop_upto {σ : Type} (s : E91Protocol σ)
    (h : complete_history s) (k : Nat) (hk : k ≤ s.n_pairs) :
    for_loop k (estimate_error_rate_body s) (0, 0) =
      some ((List.range k).countP (same_basis_agree s),
        (List.range k).countP (same_basis s)) := by
  induction k with
  | zero => rfl
  | succ k ih =>
    rw [for_loop_succ, ih (Nat.le_of_succ_le hk), Option.some_bind,
      estimate_error_rate_body_inside s h k hk, List.range_succ]
    cases hb : same_basis s k <;>
      cases ha : alice_outcome_of s k == bob_outcome_of s k <;>
      simp [List.countP_append, hb, ha, same_basis_agree]

theorem estimate_error_rate_loop_eq {σ : Type} (s : E91Protocol σ)
    (h : complete_history s) :
    estimate_error_rate_loop s =
      some (count_trials s (same_basis_agree s), count_trials s (same_basis s)) :=
  estimate_error_rate_loop_upto s h s.n_pairs (Nat.le_refl _)

theorem countP_range_le (p : Nat → Bool) (n : Nat) : (List.range n).countP p ≤ n := by
  have := List.countP_le_length p (l := List.range n)
  simpa using this

/-- C2: on a complete trial history the sifted key is no longer than `n_pairs`
and its length is the number of trials with `alice_bases[i] == bob_bases[i]`,
which is also the `matching_count` of `sift_key` and the `total_same_basis` of
`estimate_error_rate`. -/
theorem sifted_key_length {σ : Type} (s : E91Protocol σ) (h : complete_history s) :
    (sift_key s).map (fun t => t.shared_key.length) =
        some (count_trials s (fun i => alice_basis_of s i == bob_basis_of s i)) ∧
      count_trials s (fun i => alice_basis_of s i == bob_basis_of s i) ≤ s.n_pairs ∧
      sift_key_matching_count s =
        some (count_trials s (fun i => alice_basis_of s i == bob_basis_of s i)) ∧
      (estimate_error_rate_loop s).map (fun r => r.2) =
        some (count_trials s (fun i => alice_basis_of s i == bob_basis_of s i)) := by
  refine ⟨?_, countP_range_le _ _, ?_, ?_⟩
  · simp only [sift_key, sift_key_loop_eq s h, Option.map_some', List.length_map,
      count_trials, List.countP_eq_length_filter]
    rfl
  · simp only [sift_key_matching_count, sift_key_loop_eq s h, Option.map_some']
    rfl
  · simp only [estimate_error_rate_loop_eq s h, Option.map_some']
    rfl

theorem sifted_key_length_witness :
    complete_history sample_history ∧
      ((sift_key sample_history).map (fun t => t.shared_key.length) =
          some (count_trials sample_history
            (fun i => alice_basis_of sample_history i == bob_basis_of sample_history i)) ∧
        count_trials sample_history
            (fun i => alice_basis_of sample_history i == bob_basis_of sample_history i) ≤
          sample_history.n_pairs ∧
        sift_key_matching_count sample_history =
          some (count_trials sample_history
            (fun i => alice_basis_of sample_history i == bob_basis_of sample_history i)) ∧
        (estimate_error_rate_loop sample_history).map (fun r => r.2) =
          some (count_trials sample_history
            (fun i => alice_basis_of sample_history i == bob_basis_of sample_history i))) :=
  ⟨⟨rfl, rfl, rfl, rfl⟩, sifted_key_length sample_history ⟨rfl, rfl, rfl, rfl⟩⟩

/-! ## `calculate_correlation` -/

theorem calculate_correlation_body_inside {σ : Type} (s : E91Protocol σ)
    (h : complete_history s) (a b i : Nat) (hi : i < s.n_pairs) (c : Counts) :
    calculate_correlation_body s a b i c =
      some (if basis_pair s a b i then
          (if outcome_pair s 0 0 i then
            { c with count_00 := c.count_00 + 1, total := c.total + 1 }
          else if outcome_pair s 0 1 i then
            { c with count_01 := c.count_01 + 1, total := c.total + 1 }
          else if outcome_pair s 1 0 i then
            { c with count_10 := c.count_10 + 1, total := c.total + 1 }
          else { c with count_11 := c.count_11 + 1, total := c.total + 1 })
        else c) := by
  obtain ⟨h1, h2, h3, h4⟩ := h
  unfold calculate_correlation_body count_outcomes
  simp only [at_eq_inside _ i _ (h1 ▸ hi), at_eq_inside _ i _ (h2 ▸ hi),
    at_eq_inside _ i _ (h3 ▸ hi), at_eq_inside _ i _ (h4 ▸ hi)]
  unfold basis_pair outcome_pair alice_basis_of bob_basis_of alice_outcome_of bob_outcome_of
    and_then
  cases s.alice_bases.getD i 0 == a <;> cases s.bob_bases.getD i 0 == b <;>
    cases s.alice_results.getD i 0 == 0 <;> cases s.alice_results.getD i 0 == 1 <;>
    cases s.bob_results.getD i 0 == 0 <;> cases s.bob_results.getD i 0 == 1 <;> rfl

theorem outcome_pair_unique {σ : Type} (s : E91Protocol σ) (x y u v i : Nat)
    (h1 : outcome_pair s x y i = true) (h2 : outcome_pair s u v i = true) :
    x = u ∧ y = v := by
  simp only [outcome_pair, Bool.and_eq_true, beq_iff_eq] at h1 h2
  omega

theorem calculate_correlation_loop_upto {σ : Type} (s : E91Protocol σ)
    (h : complete_history s) (a b k : Nat) (hk : k ≤ s.n_pairs) :
    for_loop k (calculate_correlation_body s a b) ⟨0, 0, 0, 0, 0⟩ =
      some ⟨(List.range k).countP (basis_outcome s a b 0 0),
        (List.range k).countP (basis_outcome s a b 0 1),
        (List.range k).countP (basis_outcome s a b 1 0),
        (List.range k).countP (basis_rest s a b),
        (List.range k).countP (basis_pair s a b)⟩ := by
  induction k with
  | zero => rfl
  | succ k ih =>
    rw [for_loop_succ, ih (Nat.le_of_succ_le hk), Option.some_bind,
      calculate_correlation_body_inside s h a b k hk, List.range_succ]
    have e1 := outcome_pair_unique s 0 0 0 1 k
    have e2 := outcome_pair_unique s 0 0 1 0 k
    have e3 := outcome_pair_unique s 0 1 1 0 k
    cases hb : basis_pair s a b k <;> cases h00 : outcome_pair s 0 0 k <;>
      cases h01 : outcome_pair s 0 1 k <;> cases h10 : outcome_pair s 1 0 k <;>
      simp [List.countP_append, hb, h00, h01, h10, basis_outcome, basis_rest] at e1 e2 e3 ⊢

theorem calculate_correlation_loop_eq {σ : Type} (s : E91Protocol σ)
    (h : complete_history s) (a b : Nat) :
    calculate_correlation_loop s a b =
      some ⟨count_trials s (basis_outcome s a b 0 0), count_trials s (basis_outcome s a b 0 1),
        count_trials s (basis_outcome s a b 1 0), count_trials s (basis_rest s a b),
        count_trials s (basis_pair s a b)⟩ :=
  calculate_correlation_loop_upto s h a b s.n_pairs (Nat.le_refl _)

theorem basis_pair_partition {σ : Type} (s : E91Protocol σ) (a b : Nat) (l : List Nat) :
    l.countP (basis_pair s a b) =
      l.countP (basis_outcome s a b 0 0) + l.countP (basis_outcome s a b 0 1) +
        l.countP (basis_outcome s a b 1 0) + l.countP (basis_rest s a b) := by
  induction l with
  | nil => rfl
  | cons k l ih =>
    have e1 := outcome_pair_unique s 0 0 0 1 k
    have e2 := outcome_pair_unique s 0 0 1 0 k
    have e3 := outcome_pair_unique s 0 1 1 0 k
    simp only [List.countP_cons, ih]
    cases hb : basis_pair s a b k <;> cases h00 : outcome_pair s 0 0 k <;>
      cases h01 : outcome_pair s 0 1 k <;> cases h10 : outcome_pair s 1 0 k <;>
      simp [hb, h00, h01, h10, basis_outcome, basis_rest] at e1 e2 e3 ⊢ <;> omega

theorem basis_rest_of_binary {σ : Type} (s : E91Protocol σ) (hb : binary_outcomes s)
    (a b : Nat) :
    count_trials s (basis_rest s a b) = count_trials s (basis_outcome s a b 1 1) := by
  unfold count_trials
  apply List.countP_congr
  intro i hi
  obtain ⟨ha, hbo⟩ := hb i (List.mem_range.mp hi)
  simp only [basis_rest, basis_outcome, outcome_pair, Bool.and_eq_true, Bool.not_eq_true',
    Bool.or_eq_false_iff, Bool.and_eq_false_iff, beq_iff_eq, beq_eq_false_iff_ne, ne_eq]
  constructor
  · rintro ⟨hp, _⟩
    exact ⟨hp, by omega, by omega⟩
  · rintro ⟨hp, h1, h2⟩
    exact ⟨hp, by omega⟩

theorem calculate_correlation_eq {σ : Type} (s : E91Protocol σ) (h : complete_history s)
    (a b : Nat) :
    calculate_correlation s a b =
      some (if count_trials s (basis_pair s a b) = 0 then 0
        else (count_trials s (basis_outcome s a b 0 0) : ℚ) / count_trials s (basis_pair s a b) +
          (count_trials s (basis_rest s a b) : ℚ) / count_trials s (basis_pair s a b) -
          (count_trials s (basis_outcome s a b 0 1) : ℚ) / count_trials s (basis_pair s a b) -
          (count_trials s (basis_outcome s a b 1 0) : ℚ) / count_trials s (basis_pair s a b)) := by
  unfold calculate_correlation
  rw [calculate_correlation_loop_eq s h a b]
  by_cases ht : count_trials s (basis_pair s a b) = 0
  · simp [ht]
  · simp [ht, double_div]

/-- C3: on a complete trial history with binary outcomes, when at least one
trial has bases `(a, b)`, `calculate_correlation(a, b)` is
`(c00 + c11 - c01 - c10) / total`, where `cXY` counts the trials with bases
`(a, b)` and outcomes `(X, Y)` and `total = c00 + c01 + c10 + c11` is the
number of trials with bases `(a, b)`. -/
theorem calculate_correlation_formula {σ : Type} (s : E91Protocol σ)
    (h : complete_history s) (hb : binary_outcomes s) (a b : Nat)
    (hpos : 0 < count_trials s (basis_pair s a b)) :
    calculate_correlation s a b =
        some (((count_trials s (basis_outcome s a b 0 0) : ℚ) +
            count_trials s (basis_outcome s a b 1 1) -
            count_trials s (basis_outcome s a b 0 1) -
            count_trials s (basis_outcome s a b 1 0)) /
          count_trials s (basis_pair s a b)) ∧
      count_trials s (basis_pair s a b) =
        count_trials s (basis_outcome s a b 0 0) + count_trials s (basis_outcome s a b 0 1) +
          count_trials s (basis_outcome s a b 1 0) + count_trials s (basis_outcome s a b 1 1) := by
  constructor
  · rw [calculate_correlation_eq s h a b, basis_rest_of_binary s hb a b,
      if_neg (Nat.pos_iff_ne_zero.mp hpos)]
    congr 1
    ring
  · rw [← basis_rest_of_binary s hb a b]
    exact basis_pair_partition s a b _

theorem calculate_correlation_formula_witness :
    complete_history sample_history ∧ binary_outcomes sample_history ∧
      0 < count_trials sample_history (basis_pair sample_history 2 2) ∧
      calculate_correlation sample_history 2 2 =
        some (((count_trials sample_history (basis_outcome sample_history 2 2 0 0) : ℚ) +
            count_trials sample_history (basis_outcome sample_history 2 2 1 1) -
            count_trials sample_history (basis_outcome sample_history 2 2 0 1) -
            count_trials sample_history (basis_outcome sample_history 2 2 1 0)) /
          count_trials sample_history (basis_pair sample_history 2 2)) ∧
      count_trials sample_history (basis_pair sample_history 2 2) =
        count_trials sample_history (basis_outcome sample_history 2 2 0 0) +
          count_trials sample_history (basis_outcome sample_history 2 2 0 1) +
          count_trials sample_history (basis_outcome sample_history 2 2 1 0) +
          count_trials sample_history (basis_outcome sample_history 2 2 1 1) :=
  ⟨⟨rfl, rfl, rfl, rfl⟩, by decide, by decide,
    calculate_correlation_formula sample_history ⟨rfl, rfl, rfl, rfl⟩ (by decide) 2 2
      (by decide)⟩

theorem correlation_quotient_bounds (c00 c01 c10 c11 t : Nat) (ht : t ≠ 0)
    (hsum : t = c00 + c01 + c10 + c11) :
    -1 ≤ (c00 : ℚ) / t + (c11 : ℚ) / t - (c01 : ℚ) / t - (c10 : ℚ) / t ∧
      (c00 : ℚ) / t + (c11 : ℚ) / t - (c01 : ℚ) / t - (c10 : ℚ) / t ≤ 1 := by
  have htq : (0 : ℚ) < t := by exact_mod_cast Nat.pos_of_ne_zero ht
  have hs : (t : ℚ) = c00 + c01 + c10 + c11 := by exact_mod_cast hsum
  have h00 : (0 : ℚ) ≤ c00 := Nat.cast_nonneg _
  have h01 : (0 : ℚ) ≤ c01 := Nat.cast_nonneg _
  have h10 : (0 : ℚ) ≤ c10 := Nat.cast_nonneg _
  have h11 : (0 : ℚ) ≤ c11 := Nat.cast_nonneg _
  have e : (c00 : ℚ) / t + (c11 : ℚ) / t - (c01 : ℚ) / t - (c10 : ℚ) / t =
      ((c00 : ℚ) + c11 - c01 - c10) / t := by ring
  rw [e, le_div_iff₀ htq, div_le_iff₀ htq]
  constructor <;> linarith

/-- C4: on a complete trial history, `calculate_correlation(a, b)` returns a
value in `[-1, 1]` when some trial has bases `(a, b)`, and returns exactly `0`
when none has; in both cases it returns a value, so no quotient by zero is
formed. -/
theorem calculate_correlation_range {σ : Type} (s : E91Protocol σ)
    (h : complete_history s) (a b : Nat) :
    (0 < count_trials s (basis_pair s a b) →
        ∃ e : ℚ, calculate_correlation s a b = some e ∧ -1 ≤ e ∧ e ≤ 1) ∧
      (count_trials s (basis_pair s a b) = 0 → calculate_correlation s a b = some 0) := by
  constructor
  · intro hpos
    have ht := Nat.pos_iff_ne_zero.mp hpos
    refine ⟨_, calculate_correlation_eq s h a b, ?_⟩
    rw [if_neg ht]
    exact correlation_quotient_bounds _ _ _ _ _ ht (basis_pair_partition s a b _)
  · intro h0
    rw [calculate_correlation_eq s h a b, if_pos h0]

theorem calculate_correlation_range_witness :
    complete_history sample_history ∧
      (0 < count_trials sample_history (basis_pair sample_history 0 2) ∧
        ∃ e : ℚ, calculate_correlation sample_history 0 2 = some e ∧ -1 ≤ e ∧ e ≤ 1) ∧
      (count_trials sample_history (basis_pair sample_history 2 1) = 0 ∧
        calculate_correlation sample_history 2 1 = some 0) :=
  ⟨⟨rfl, rfl, rfl, rfl⟩,
    ⟨by decide,
      (calculate_correlation_range sample_history ⟨rfl, rfl, rfl, rfl⟩ 0 2).1 (by decide)⟩,
    ⟨by decide,
      (calculate_correlation_range sample_history ⟨rfl, rfl, rfl, rfl⟩ 2 1).2 (by decide)⟩⟩

/-! ## The error rate -/

theorem same_basis_partition {σ : Type} (s : E91Protocol σ) (l : List Nat) :
    l.countP (same_basis s) =
      l.countP (same_basis_agree s) + l.countP (same_basis_differ s) := by
  induction l with
  | nil => rfl
  | cons k l ih =>
    simp only [List.countP_cons, ih]
    cases hb : same_basis s k <;> cases ha : alice_outcome_of s k == bob_outcome_of s k <;>
      simp [hb, ha, same_basis_agree, same_basis_differ] <;> omega

theorem estimate_error_rate_eq {σ : Type} (s : E91Protocol σ) (h : complete_history s) :
    estimate_error_rate s =
      some (if count_trials s (same_basis s) = 0 then 0
        else 1 - (count_trials s (same_basis_agree s) : ℚ) / count_trials s (same_basis s)) := by
  unfold estimate_error_rate
  rw [estimate_error_rate_loop_eq s h]
  by_cases ht : count_trials s (same_basis s) = 0
  · simp [ht]
  · simp [ht, double_div]

/-- C5: on a complete trial history with at least one same-basis trial,
`estimate_error_rate` returns the number of same-basis trials whose outcomes
differ divided by the number of same-basis trials. -/
theorem estimate_error_rate_fraction {σ : Type} (s : E91Protocol σ)
    (h : complete_history s)
    (hpos : 0 < count_trials s (fun i => alice_basis_of s i == bob_basis_of s i)) :
    estimate_error_rate s =
      some ((count_trials s (fun i => alice_basis_of s i == bob_basis_of s i &&
            !(alice_outcome_of s i == bob_outcome_of s i)) : ℚ) /
        count_trials s (fun i => alice_basis_of s i == bob_basis_of s i)) := by
  have ht : count_trials s (same_basis s) ≠ 0 := Nat.pos_iff_ne_zero.mp hpos
  have htq : (count_trials s (same_basis s) : ℚ) ≠ 0 := by exact_mod_cast ht
  have hsum : (count_trials s (same_basis s) : ℚ) =
      count_trials s (same_basis_agree s) + count_trials s (same_basis_differ s) := by
    exact_mod_cast same_basis_partition s (List.range s.n_pairs)
  rw [estimate_error_rate_eq s h, if_neg ht]
  show some (1 - (count_trials s (same_basis_agree s) : ℚ) / count_trials s (same_basis s)) =
    some ((count_trials s (same_basis_differ s) : ℚ) / count_trials s (same_basis s))
  congr 1
  field_simp
  linarith

theorem estimate_error_rate_fraction_witness :
    complete_history sample_history ∧
      0 < count_trials sample_history
        (fun i => alice_basis_of sample_history i == bob_basis_of sample_history i) ∧
      estimate_error_rate sample_history =
        some ((count_trials sample_history
              (fun i => alice_basis_of sample_history i == bob_basis_of sample_history i &&
                !(alice_outcome_of sample_history i == bob_outcome_of sample_history i)) : ℚ) /
          count_trials sample_history
            (fun i => alice_basis_of sample_history i == bob_basis_of sample_history i)) :=
  ⟨⟨rfl, rfl, rfl, rfl⟩, by decide,
    estimate_error_rate_fraction sample_history ⟨rfl, rfl, rfl, rfl⟩ (by decide)⟩

/-- C6: on a complete trial history `estimate_error_rate` returns a value in
`[0, 1]`, and that value is exactly `0` when no trial has
`alice_bases[i] == bob_bases[i]`; it always returns a value, so no quotient by
zero is formed. -/
theorem estimate_error_rate_range {σ : Type} (s : E91Protocol σ) (h : complete_history s) :
    ∃ e : ℚ, estimate_error_rate s = some e ∧ 0 ≤ e ∧ e ≤ 1 ∧
      (count_trials s (fun i => alice_basis_of s i == bob_basis_of s i) = 0 → e = 0) := by
  refine ⟨_, estimate_error_rate_eq s h, ?_, ?_, ?_⟩
  · by_cases ht : count_trials s (same_basis s) = 0
    · rw [if_pos ht]
    · rw [if_neg ht]
      have htq : (0 : ℚ) < count_trials s (same_basis s) := by
        exact_mod_cast Nat.pos_of_ne_zero ht
      have hle : (count_trials s (same_basis_agree s) : ℚ) ≤ count_trials s (same_basis s) := by
        have := same_basis_partition s (List.range s.n_pairs)
        have hn : count_trials s (same_basis_agree s) ≤ count_trials s (same_basis s) := by
          unfold count_trials
          omega
        exact_mod_cast hn
      have := (div_le_one htq).mpr hle
      linarith
  · by_cases ht : count_trials s (same_basis s) = 0
    · rw [if_pos ht]
      exact zero_le_one
    · rw [if_neg ht]
      have hq : (0 : ℚ) ≤ (count_trials s (same_basis_agree s) : ℚ) /
          count_trials s (same_basis s) :=
        div_nonneg (Nat.cast_nonneg _) (Nat.cast_nonneg _)
      linarith
  · intro h0
    exact if_pos h0

theorem estimate_error_rate_range_witness :
    complete_history sample_history ∧
      ∃ e : ℚ, estimate_error_rate sample_history = some e ∧ 0 ≤ e ∧ e ≤ 1 ∧
        (count_trials sample_history
          (fun i => alice_basis_of sample_history i == bob_basis_of sample_history i) = 0 →
            e = 0) :=
  ⟨⟨rfl, rfl, rfl, rfl⟩, estimate_error_rate_range sample_history ⟨rfl, rfl, rfl, rfl⟩⟩

/-! ## The Bell test -/

/-- C7: on a complete trial history the four calls `calculate_correlation(0,1)`,
`(0,2)`, `(2,1)`, `(2,2)` return values `E01`, `E02`, `E21`, `E22`, and
`perform_bell_test` returns `|E01 - E02 + E21 + E22|`. -/
theorem perform_bell_test_formula {σ : Type} (s : E91Protocol σ) (h : complete_history s) :
    ∃ e01 e02 e21 e22 : ℚ,
      calculate_correlation s 0 1 = some e01 ∧ calculate_correlation s 0 2 = some e02 ∧
      calculate_correlation s 2 1 = some e21 ∧ calculate_correlation s 2 2 = some e22 ∧
      perform_bell_test s = some |e01 - e02 + e21 + e22| := by
  refine ⟨_, _, _, _, calculate_correlation_eq s h 0 1, calculate_correlation_eq s h 0 2,
    calculate_correlation_eq s h 2 1, calculate_correlation_eq s h 2 2, ?_⟩
  unfold perform_bell_test
  rw [calculate_correlation_eq s h 0 1, calculate_correlation_eq s h 0 2,
    calculate_correlation_eq s h 2 1, calculate_correlation_eq s h 2 2]
  rfl

theorem perform_bell_test_formula_witness :
    complete_history sample_history ∧
      ∃ e01 e02 e21 e22 : ℚ,
        calculate_correlation sample_history 0 1 = some e01 ∧
        calculate_correlation sample_history 0 2 = some e02 ∧
        calculate_correlation sample_history 2 1 = some e21 ∧
        calculate_correlation sample_history 2 2 = some e22 ∧
        perform_bell_test sample_history = some |e01 - e02 + e21 + e22| :=
  ⟨⟨rfl, rfl, rfl, rfl⟩, perform_bell_test_formula sample_history ⟨rfl, rfl, rfl, rfl⟩⟩

/-! ## The generator -/

theorem one_lt_sqrt_two : (1 : ℝ) < √2 := by
  rw [Real.lt_sqrt (by norm_num)]
  norm_num

theorem model_chsh_value : model_chsh exact_arith = some (1 + √2) := by
  have h1 : Real.cos (2 * (0 - Real.pi / 8)) = √2 / 2 := by
    rw [show 2 * (0 - Real.pi / 8) = -(Real.pi / 4) by ring, Real.cos_neg, Real.cos_pi_div_four]
  have h2 : Real.cos (2 * (0 - Real.pi / 4)) = 0 := by
    rw [show 2 * (0 - Real.pi / 4) = -(Real.pi / 2) by ring, Real.cos_neg, Real.cos_pi_div_two]
  have h3 : Real.cos (2 * (Real.pi / 4 - Real.pi / 8)) = √2 / 2 := by
    rw [show 2 * (Real.pi / 4 - Real.pi / 8) = Real.pi / 4 by ring, Real.cos_pi_div_four]
  have h4 : Real.cos (2 * (Real.pi / 4 - Real.pi / 4)) = 1 := by
    rw [sub_self, mul_zero, Real.cos_zero]
  have hs : (0 : ℝ) ≤ √2 := Real.sqrt_nonneg 2
  have e : -(√2 / 2) - -0 + -(√2 / 2) + -1 = -(1 + √2) := by ring
  show some |(-Real.cos (2 * (0 - Real.pi / 8))) - (-Real.cos (2 * (0 - Real.pi / 4))) +
      (-Real.cos (2 * (Real.pi / 4 - Real.pi / 8))) +
      (-Real.cos (2 * (Real.pi / 4 - Real.pi / 4)))| = some (1 + √2)
  rw [h1, h2, h3, h4, e, abs_neg, abs_of_nonneg (by linarith)]

theorem model_chsh_with_three : model_chsh_with exact_arith 3 = some (2 * √2) := by
  have h1 : Real.cos (2 * (0 - Real.pi / 8)) = √2 / 2 := by
    rw [show 2 * (0 - Real.pi / 8) = -(Real.pi / 4) by ring, Real.cos_neg, Real.cos_pi_div_four]
  have h2 : Real.cos (2 * (0 - 3 * Real.pi / 8)) = -(√2 / 2) := by
    rw [show 2 * (0 - 3 * Real.pi / 8) = -(Real.pi - Real.pi / 4) by ring, Real.cos_neg,
      Real.cos_pi_sub, Real.cos_pi_div_four]
  have h3 : Real.cos (2 * (Real.pi / 4 - Real.pi / 8)) = √2 / 2 := by
    rw [show 2 * (Real.pi / 4 - Real.pi / 8) = Real.pi / 4 by ring, Real.cos_pi_div_four]
  have h4 : Real.cos (2 * (Real.pi / 4 - 3 * Real.pi / 8)) = √2 / 2 := by
    rw [show 2 * (Real.pi / 4 - 3 * Real.pi / 8) = -(Real.pi / 4) by ring, Real.cos_neg,
      Real.cos_pi_div_four]
  have hs : (0 : ℝ) ≤ √2 := Real.sqrt_nonneg 2
  have e : -(√2 / 2) - -(-(√2 / 2)) + -(√2 / 2) + -(√2 / 2) = -(2 * √2) := by ring
  show some |(-Real.cos (2 * (0 - Real.pi / 8))) - (-Real.cos (2 * (0 - 3 * Real.pi / 8))) +
      (-Real.cos (2 * (Real.pi / 4 - Real.pi / 8))) +
      (-Real.cos (2 * (Real.pi / 4 - 3 * Real.pi / 8)))| = some (2 * √2)
  rw [h1, h2, h3, h4, e, abs_neg, abs_of_nonneg (by linarith)]

/-- C8, evaluated on the code: in exact arithmetic the CHSH combination of the
model correlation over the pairs `(0,1)`, `(0,2)`, `(2,1)`, `(2,2)` that
`perform_bell_test` uses is `1 + sqrt 2`, which is below `2 * sqrt 2`; the
same combination with Bob's second setting at index `3` (angle `3 pi / 8`)
instead of index `2` is `2 * sqrt 2`. -/
theorem model_chsh_misses_tsirelson :
    model_chsh exact_arith = some (1 + √2) ∧ model_chsh exact_arith ≠ some (2 * √2) ∧
      (1 : ℝ) + √2 < 2 * √2 ∧
      model_chsh_with exact_arith 2 = model_chsh exact_arith ∧
      model_chsh_with exact_arith 3 = some (2 * √2) := by
  have h := one_lt_sqrt_two
  refine ⟨model_chsh_value, ?_, by linarith, rfl, model_chsh_with_three⟩
  rw [model_chsh_value]
  intro hc
  have h1 := Option.some.inj hc
  linarith

theorem model_correlation_same_basis (D : DoubleArith) (b : Nat) (hb : b < 4) :
    model_correlation D b b = some (-1) := by
  have h : ∃ x, (measurement_angles D)[b]? = some x := by
    have hl : b < (measurement_angles D).length := by simpa [measurement_angles] using hb
    exact ⟨_, List.getElem?_eq_getElem hl⟩
  obtain ⟨x, hx⟩ := h
  simp [model_correlation, hx, D.round_zero, D.cos_zero]

theorem bell_pair_outcomes_opposite (D : DoubleArith) (u1 u2 : ℝ) (hu : 0 ≤ u2) :
    (bell_pair_outcomes D (-1) u1 u2).2 = 1 - (bell_pair_outcomes D (-1) u1 u2).1 ∧
      (bell_pair_outcomes D (-1) u1 u2).1 ≤ 1 := by
  have hn : ¬ u2 < D.round (D.round (1 + (-1 : ℝ)) / 2) := by
    rw [add_neg_cancel, D.round_zero, zero_div, D.round_zero]
    exact not_lt.mpr hu
  unfold bell_pair_outcomes
  simp only [hn, if_false]
  constructor
  · trivial
  · split <;> omega

theorem measure_bell_pair_same_basis {σ : Type} (D : DoubleArith) (R : RandomSource σ)
    (g : σ) (b : Nat) (hb : b < 4) (hu : 0 ≤ (R.uniform_real (R.uniform_real g).2).1) :
    ∃ r : (Nat × Nat) × σ, measure_bell_pair D R g b b = some r ∧
      r.1.2 = 1 - r.1.1 ∧ r.1.1 ≤ 1 ∧ r.1.2 ≠ r.1.1 := by
  have hopp := bell_pair_outcomes_opposite D (R.uniform_real g).1
    (R.uniform_real (R.uniform_real g).2).1 hu
  refine ⟨(bell_pair_outcomes D (-1) (R.uniform_real g).1
      (R.uniform_real (R.uniform_real g).2).1, (R.uniform_real (R.uniform_real g).2).2),
    ?_, hopp.1, hopp.2, ?_⟩
  · simp only [measure_bell_pair, model_correlation_same_basis D b hb]
    rfl
  · have h1 := hopp.1
    have h2 := hopp.2
    dsimp only
    omega

/-- C9, at a failing input: in every double arithmetic, one pair generated from
the digit source with seed `101` has Alice basis `1`, Bob basis `1`, Alice
outcome `0` and Bob outcome `1`; the bit sifted from Alice's outcome is
`false`, while Bob's outcome is `1`. -/
theorem same_basis_trial_outcomes_differ (D : DoubleArith) :
    ∃ s : E91Protocol Nat,
      run_protocol D digit_source (E91Protocol.construct digit_source 1 101) = some s ∧
      s.alice_bases = [1] ∧ s.bob_bases = [1] ∧
      s.alice_results = [0] ∧ s.bob_results = [1] ∧
      (sift_key s).map (fun t => t.shared_key) = some [false] := by
  have hrun : run_protocol D digit_source (E91Protocol.construct digit_source 1 101) =
      some { rng := 0, n_pairs := 1, alice_bases := [1], bob_bases := [1],
             alice_results := [0], bob_results := [1], shared_key := [] } := by
    have hc := model_correlation_same_basis D 1 (by norm_num)
    show for_loop 1 (run_protocol_body D digit_source) _ = _
    rw [for_loop_succ, for_loop_zero, Option.some_bind]
    simp [run_protocol_body, measure_bell_pair, hc, bell_pair_outcomes, digit_source,
      E91Protocol.construct, D.round_zero]
    norm_num
  exact ⟨_, hrun, rfl, rfl, rfl, rfl, by decide⟩

/-- C10: with `numPairs = 0`, `run_protocol` succeeds and leaves the four
history vectors empty; on the resulting state `sift_key` succeeds with an
empty key, each of `calculate_correlation(0,1)`, `(0,2)`, `(2,1)`, `(2,2)`
returns `0`, `perform_bell_test` returns `0` and `estimate_error_rate`
returns `0`. -/
theorem zero_pairs_scenario {σ : Type} (D : DoubleArith) (R : RandomSource σ) (seed : Nat) :
    ∃ s t : E91Protocol σ,
      run_protocol D R (E91Protocol.construct R 0 seed) = some s ∧
      s.alice_bases = [] ∧ s.bob_bases = [] ∧ s.alice_results = [] ∧ s.bob_results = [] ∧
      sift_key s = some t ∧ t.shared_key = [] ∧
      calculate_correlation t 0 1 = some 0 ∧ calculate_correlation t 0 2 = some 0 ∧
      calculate_correlation t 2 1 = some 0 ∧ calculate_correlation t 2 2 = some 0 ∧
      perform_bell_test t = some 0 ∧ estimate_error_rate t = some 0 := by
  refine ⟨E91Protocol.construct R 0 seed, E91Protocol.construct R 0 seed,
    rfl, rfl, rfl, rfl, rfl, rfl, rfl, rfl, rfl, rfl, rfl, ?_, rfl⟩
  have h : ∀ a b, calculate_correlation (E91Protocol.construct R 0 seed) a b = some 0 :=
    fun _ _ => rfl
  simp [perform_bell_test, h]

/-! ## The generator loop -/

theorem for_loop_invariant {α : Type} (P : Nat → α → Prop) (body : Nat → α → Option α)
    (start : α) (n : Nat) (h0 : P 0 start)
    (hstep : ∀ i acc, i < n → P i acc → ∃ next, body i acc = some next ∧ P (i + 1) next) :
    ∃ r, for_loop n body start = some r ∧ P n r := by
  induction n with
  | zero => exact ⟨start, rfl, h0⟩
  | succ k ih =>
    obtain ⟨r, hr, hP⟩ := ih (fun i acc hi => hstep i acc (Nat.lt_succ_of_lt hi))
    obtain ⟨next, hn, hQ⟩ := hstep k r (Nat.lt_succ_self k) hP
    exact ⟨next, by rw [for_loop_succ, hr, Option.some_bind, hn], hQ⟩

theorem digit_source_int_draws : int_draws_in_range digit_source := by
  intro lo hi g h
  have hm : g % 10 % (hi - lo + 1) < hi - lo + 1 := Nat.mod_lt _ (Nat.succ_pos _)
  show lo ≤ lo + g % 10 % (hi - lo + 1) ∧ lo + g % 10 % (hi - lo + 1) ≤ hi
  omega

theorem digit_source_real_draws : real_draws_in_unit digit_source := by
  intro g
  have hm : g % 10 % 4 < 4 := Nat.mod_lt _ (by norm_num)
  have hq : ((g % 10 % 4 : Nat) : ℝ) < 4 := by exact_mod_cast hm
  have h0 : (0 : ℝ) ≤ ((g % 10 % 4 : Nat) : ℝ) := Nat.cast_nonneg _
  show 0 ≤ ((g % 10 % 4 : Nat) : ℝ) / 4 ∧ ((g % 10 % 4 : Nat) : ℝ) / 4 < 1
  constructor
  · positivity
  · rw [div_lt_one (by norm_num)]
    exact hq

theorem model_correlation_inside (D : DoubleArith) (a b : Nat) (ha : a < 4) (hb : b < 4) :
    model_correlation D a b =
      some (-D.cos (D.round (2 * D.round ((measurement_angles D).getD a 0 -
        (measurement_angles D).getD b 0)))) := by
  have hla : a < (measurement_angles D).length := by simpa [measurement_angles] using ha
  have hlb : b < (measurement_angles D).length := by simpa [measurement_angles] using hb
  simp [model_correlation, List.getD, List.getElem?_eq_getElem hla,
    List.getElem?_eq_getElem hlb]

theorem bell_pair_outcomes_binary (D : DoubleArith) (c u1 u2 : ℝ) :
    (bell_pair_outcomes D c u1 u2).1 ≤ 1 ∧ (bell_pair_outcomes D c u1 u2).2 ≤ 1 := by
  unfold bell_pair_outcomes
  constructor
  · dsimp only
    split <;> omega
  · dsimp only
    split <;> split <;> omega

theorem run_protocol_body_inside {σ : Type} (D : DoubleArith) (R : RandomSource σ) (hR : int_draws_in_range R)
    (i : Nat) (s : E91Protocol σ) :
    run_protocol_body D R i s =
      some { s with
        rng := (R.uniform_real (R.uniform_real
          (R.uniform_int 1 3 (R.uniform_int 0 2 s.rng).2).2).2).2
        alice_bases := s.alice_bases ++ [(R.uniform_int 0 2 s.rng).1]
        bob_bases := s.bob_bases ++ [(R.uniform_int 1 3 (R.uniform_int 0 2 s.rng).2).1]
        alice_results := s.alice_results ++
          [(bell_pair_outcomes D
            (-D.cos (D.round (2 * D.round
              ((measurement_angles D).getD (R.uniform_int 0 2 s.rng).1 0 -
                (measurement_angles D).getD
                  (R.uniform_int 1 3 (R.uniform_int 0 2 s.rng).2).1 0))))
            (R.uniform_real (R.uniform_int 1 3 (R.uniform_int 0 2 s.rng).2).2).1
            (R.uniform_real (R.uniform_real
              (R.uniform_int 1 3 (R.uniform_int 0 2 s.rng).2).2).2).1).1]
        bob_results := s.bob_results ++
          [(bell_pair_outcomes D
            (-D.cos (D.round (2 * D.round
              ((measurement_angles D).getD (R.uniform_int 0 2 s.rng).1 0 -
                (measurement_angles D).getD
                  (R.uniform_int 1 3 (R.uniform_int 0 2 s.rng).2).1 0))))
            (R.uniform_real (R.uniform_int 1 3 (R.uniform_int 0 2 s.rng).2).2).1
            (R.uniform_real (R.uniform_real
              (R.uniform_int 1 3 (R.uniform_int 0 2 s.rng).2).2).2).1).2] } := by
  have ha := (hR 0 2 s.rng (by norm_num)).2
  have hb := (hR 1 3 (R.uniform_int 0 2 s.rng).2 (by norm_num)).2
  simp only [run_protocol_body, measure_bell_pair,
    model_correlation_inside D _ _ (Nat.lt_succ_of_le (Nat.le_succ_of_le ha))
      (Nat.lt_succ_of_le hb)]
  rfl

theorem run_protocol_body_trial {σ : Type} (D : DoubleArith) (R : RandomSource σ) (hR : int_draws_in_range R)
    (i : Nat) (s : E91Protocol σ) :
    ∃ (a b ra rb : Nat) (g : σ),
      run_protocol_body D R i s =
        some { s with
          rng := g
          alice_bases := s.alice_bases ++ [a]
          bob_bases := s.bob_bases ++ [b]
          alice_results := s.alice_results ++ [ra]
          bob_results := s.bob_results ++ [rb] } ∧
      a ≤ 2 ∧ 1 ≤ b ∧ b ≤ 3 ∧ ra ≤ 1 ∧ rb ≤ 1 ∧
      (real_draws_in_unit R → a = b → rb = 1 - ra) := by
  have ha := (hR 0 2 s.rng (by norm_num)).2
  have hb := hR 1 3 (R.uniform_int 0 2 s.rng).2 (by norm_num)
  have hbin := bell_pair_outcomes_binary D
    (-D.cos (D.round (2 * D.round
      ((measurement_angles D).getD (R.uniform_int 0 2 s.rng).1 0 -
        (measurement_angles D).getD (R.uniform_int 1 3 (R.uniform_int 0 2 s.rng).2).1 0))))
    (R.uniform_real (R.uniform_int 1 3 (R.uniform_int 0 2 s.rng).2).2).1
    (R.uniform_real (R.uniform_real (R.uniform_int 1 3 (R.uniform_int 0 2 s.rng).2).2).2).1
  refine ⟨_, _, _, _, _, run_protocol_body_inside D R hR i s, ha, hb.1, hb.2, hbin.1, hbin.2, ?_⟩
  intro hU hab
  have hu := (hU (R.uniform_real (R.uniform_int 1 3 (R.uniform_int 0 2 s.rng).2).2).2).1
  rw [hab, sub_self, D.round_zero, mul_zero, D.round_zero, D.cos_zero]
  exact (bell_pair_outcomes_opposite D _ _ hu).1

theorem getD_append_old (l : List Nat) (x i : Nat) (h : i < l.length) :
    (l ++ [x]).getD i 0 = l.getD i 0 :=
  List.getD_append l [x] 0 i h

theorem getD_append_new (l : List Nat) (x : Nat) :
    (l ++ [x]).getD l.length 0 = x := by
  rw [List.getD_append_right l [x] 0 l.length (Nat.le_refl _)]
  simp

theorem generated_upto_step {σ : Type} (D : DoubleArith) (R : RandomSource σ) (hR : int_draws_in_range R)
    (n k : Nat) (t : E91Protocol σ) (h : generated_upto R n k t) :
    ∃ next, run_protocol_body D R k t = some next ∧ generated_upto R n (k + 1) next := by
  obtain ⟨a, b, ra, rb, g, hbody, ha, hb1, hb3, hra, hrb, hopp⟩ :=
    run_protocol_body_trial D R hR k t
  obtain ⟨hn, hkey, l1, l2, l3, l4, hall⟩ := h
  refine ⟨_, hbody, hn, hkey, by simp [l1], by simp [l2], by simp [l3], by simp [l4], ?_⟩
  intro i hi
  unfold alice_basis_of bob_basis_of alice_outcome_of bob_outcome_of
  dsimp only
  rcases Nat.lt_succ_iff_lt_or_eq.mp hi with hlt | heq
  · rw [getD_append_old _ _ i (l1 ▸ hlt), getD_append_old _ _ i (l2 ▸ hlt),
      getD_append_old _ _ i (l3 ▸ hlt), getD_append_old _ _ i (l4 ▸ hlt)]
    exact hall i hlt
  · subst heq
    have e1 := getD_append_new t.alice_bases a
    have e2 := getD_append_new t.bob_bases b
    have e3 := getD_append_new t.alice_results ra
    have e4 := getD_append_new t.bob_results rb
    rw [l1] at e1
    rw [l2] at e2
    rw [l3] at e3
    rw [l4] at e4
    rw [e1, e2, e3, e4]
    exact ⟨ha, hb1, hb3, hra, hrb, hopp⟩

theorem run_protocol_generated {σ : Type} (D : DoubleArith) (R : RandomSource σ) (hR : int_draws_in_range R)
    (n seed : Nat) :
    ∃ t, run_protocol D R (E91Protocol.construct R n seed) = some t ∧
      generated_upto R n n t := by
  apply for_loop_invariant (fun k t => generated_upto R n k t) (run_protocol_body D R)
    (E91Protocol.construct R n seed) n
  · exact ⟨rfl, rfl, rfl, rfl, rfl, rfl, fun i hi => absurd hi (Nat.not_lt_zero i)⟩
  · intro i acc _ hP
    exact generated_upto_step D R hR n i acc hP

theorem mem_getD (l : List Nat) (x : Nat) (h : x ∈ l) :
    ∃ i, i < l.length ∧ l.getD i 0 = x := by
  obtain ⟨i, hi, hx⟩ := List.mem_iff_getElem.mp h
  exact ⟨i, hi, by rw [List.getD_eq_getElem l 0 hi, hx]⟩

/-- C11: when every integer draw lies in the closed range of its distribution,
`run_protocol` on a freshly constructed object (any seed, any pair count)
succeeds, and every Alice basis it records is in `{0, 1, 2}` and every Bob
basis in `{1, 2, 3}`. -/
theorem recorded_bases_in_range {σ : Type} (D : DoubleArith) (R : RandomSource σ)
    (hR : int_draws_in_range R) (n seed : Nat) :
    ∃ t, run_protocol D R (E91Protocol.construct R n seed) = some t ∧
      (∀ a ∈ t.alice_bases, a = 0 ∨ a = 1 ∨ a = 2) ∧
      (∀ b ∈ t.bob_bases, b = 1 ∨ b = 2 ∨ b = 3) := by
  obtain ⟨t, hrun, _, _, l1, l2, _, _, hall⟩ := run_protocol_generated D R hR n seed
  refine ⟨t, hrun, ?_, ?_⟩
  · intro a ha
    obtain ⟨i, hi, hx⟩ := mem_getD _ a ha
    have h := (hall i (l1 ▸ hi)).1
    unfold alice_basis_of at h
    omega
  · intro b hb
    obtain ⟨i, hi, hx⟩ := mem_getD _ b hb
    have h := hall i (l2 ▸ hi)
    unfold bob_basis_of at h
    omega

theorem recorded_bases_in_range_witness :
    int_draws_in_range digit_source ∧
      ∃ t, run_protocol exact_arith digit_source (E91Protocol.construct digit_source 2 3021) = some t ∧
        (∀ a ∈ t.alice_bases, a = 0 ∨ a = 1 ∨ a = 2) ∧
        (∀ b ∈ t.bob_bases, b = 1 ∨ b = 2 ∨ b = 3) :=
  ⟨digit_source_int_draws, recorded_bases_in_range exact_arith digit_source digit_source_int_draws 2 3021⟩

/-- C16: one iteration of `run_protocol` makes exactly four successive draws,
in the order Alice basis `a`, Bob basis `b`, `u1`, `u2`, leaves the generator
in the state after the fourth, and records `a`, `b`, Alice's outcome
`0` if `u1 < 0.5` and `1` otherwise, and Bob's outcome equal to Alice's if
`u2 < (1 + correlation) / 2` with
`correlation = -cos(2 * (angle[a] - angle[b]))` and to `1 -` Alice's otherwise,
each operation of the two formulas giving its `double` result; both outcomes
are `0` or `1`. -/
theorem trial_is_four_draws {σ : Type} (D : DoubleArith) (R : RandomSource σ) (i : Nat)
    (s : E91Protocol σ) (a b : Nat) (g1 g2 g3 g4 : σ) (u1 u2 : ℝ)
    (hd1 : R.uniform_int 0 2 s.rng = (a, g1)) (hd2 : R.uniform_int 1 3 g1 = (b, g2))
    (hd3 : R.uniform_real g2 = (u1, g3)) (hd4 : R.uniform_real g3 = (u2, g4))
    (ha : a ≤ 2) (hb : 1 ≤ b ∧ b ≤ 3) :
    ∃ (angle_a angle_b : ℝ) (alice_result bob_result : Nat),
      (measurement_angles D)[a]? = some angle_a ∧
      (measurement_angles D)[b]? = some angle_b ∧
      alice_result = (if u1 < 0.5 then 0 else 1) ∧
      bob_result =
        (if u2 < D.round (D.round (1 + -D.cos (D.round (2 * D.round (angle_a - angle_b)))) / 2)
          then alice_result else 1 - alice_result) ∧
      alice_result ≤ 1 ∧ bob_result ≤ 1 ∧
      run_protocol_body D R i s =
        some { s with
          rng := g4
          alice_bases := s.alice_bases ++ [a]
          bob_bases := s.bob_bases ++ [b]
          alice_results := s.alice_results ++ [alice_result]
          bob_results := s.bob_results ++ [bob_result] } := by
  have hla : a < (measurement_angles D).length := by
    simp only [measurement_angles, List.length_cons, List.length_nil]
    omega
  have hlb : b < (measurement_angles D).length := by
    simp only [measurement_angles, List.length_cons, List.length_nil]
    omega
  have hbin := bell_pair_outcomes_binary D
    (-D.cos (D.round (2 * D.round ((measurement_angles D)[a] - (measurement_angles D)[b]))))
    u1 u2
  refine ⟨(measurement_angles D)[a], (measurement_angles D)[b],
    (bell_pair_outcomes D
      (-D.cos (D.round (2 * D.round ((measurement_angles D)[a] - (measurement_angles D)[b]))))
      u1 u2).1,
    (bell_pair_outcomes D
      (-D.cos (D.round (2 * D.round ((measurement_angles D)[a] - (measurement_angles D)[b]))))
      u1 u2).2,
    List.getElem?_eq_getElem hla, List.getElem?_eq_getElem hlb, rfl, rfl, hbin.1, hbin.2, ?_⟩
  simp [run_protocol_body, measure_bell_pair, model_correlation, hd1, hd2, hd3, hd4,
    List.getElem?_eq_getElem hla, List.getElem?_eq_getElem hlb]

theorem trial_is_four_draws_witness :
    digit_source.uniform_int 0 2 (E91Protocol.construct digit_source 1 3021).rng = (1, 302) ∧
      digit_source.uniform_int 1 3 302 = (3, 30) ∧
      digit_source.uniform_real 30 = (0, 3) ∧
      digit_source.uniform_real 3 = (3 / 4, 0) ∧
      ∃ (angle_a angle_b : ℝ) (alice_result bob_result : Nat),
        (measurement_angles exact_arith)[1]? = some angle_a ∧
        (measurement_angles exact_arith)[3]? = some angle_b ∧
        alice_result = (if (0 : ℝ) < 0.5 then 0 else 1) ∧
        bob_result =
          (if (3 / 4 : ℝ) < exact_arith.round (exact_arith.round
              (1 + -exact_arith.cos (exact_arith.round
                (2 * exact_arith.round (angle_a - angle_b)))) / 2)
            then alice_result else 1 - alice_result) ∧
        alice_result ≤ 1 ∧ bob_result ≤ 1 ∧
        run_protocol_body exact_arith digit_source 0
            (E91Protocol.construct digit_source 1 3021) =
          some { E91Protocol.construct digit_source 1 3021 with
            rng := 0
            alice_bases := (E91Protocol.construct digit_source 1 3021).alice_bases ++ [1]
            bob_bases := (E91Protocol.construct digit_source 1 3021).bob_bases ++ [3]
            alice_results :=
              (E91Protocol.construct digit_source 1 3021).alice_results ++ [alice_result]
            bob_results :=
              (E91Protocol.construct digit_source 1 3021).bob_results ++ [bob_result] } := by
  have h1 : digit_source.uniform_int 0 2 (E91Protocol.construct digit_source 1 3021).rng =
      (1, 302) := by
    simp [digit_source, E91Protocol.construct]
  have h2 : digit_source.uniform_int 1 3 302 = (3, 30) := by
    simp [digit_source]
  have h3 : digit_source.uniform_real 30 = (0, 3) := by
    simp [digit_source]
  have h4 : digit_source.uniform_real 3 = (3 / 4, 0) := by
    simp [digit_source]
  exact ⟨h1, h2, h3, h4,
    trial_is_four_draws exact_arith digit_source 0 (E91Protocol.construct digit_source 1 3021)
      1 3 302 30 3 0 0 (3 / 4) h1 h2 h3 h4 (by norm_num) (by norm_num)⟩

theorem generated_upto_complete {σ : Type} (R : RandomSource σ) (n : Nat)
    (t : E91Protocol σ) (h : generated_upto R n n t) : complete_history t := by
  obtain ⟨hn, _, l1, l2, l3, l4, _⟩ := h
  exact ⟨by rw [l1, hn], by rw [l2, hn], by rw [l3, hn], by rw [l4, hn]⟩

theorem count_trials_eq_zero {σ : Type} (s : E91Protocol σ) (p : Nat → Bool)
    (h : ∀ i, i < s.n_pairs → p i = false) : count_trials s p = 0 := by
  unfold count_trials
  rw [List.countP_eq_zero]
  intro i hi
  rw [h i (List.mem_range.mp hi)]
  exact Bool.false_ne_true

theorem opposite_outcomes_error_rate {σ : Type} (t : E91Protocol σ)
    (hc : complete_history t)
    (hopp : ∀ i, i < t.n_pairs → alice_basis_of t i = bob_basis_of t i →
      bob_outcome_of t i = 1 - alice_outcome_of t i ∧ alice_outcome_of t i ≤ 1) :
    estimate_error_rate t =
      some (if count_trials t (same_basis t) = 0 then 0 else 1) := by
  have hz : count_trials t (same_basis_agree t) = 0 := by
    apply count_trials_eq_zero
    intro i hi
    cases hb : same_basis t i
    · simp [same_basis_agree, hb]
    · have h := hopp i hi (by simpa [same_basis] using hb)
      have hne : alice_outcome_of t i ≠ bob_outcome_of t i := by omega
      simp [same_basis_agree, hb, hne]
  rw [estimate_error_rate_eq t hc, hz]
  simp

theorem opposite_outcomes_correlation {σ : Type} (t : E91Protocol σ)
    (hc : complete_history t) (b : Nat)
    (hopp : ∀ i, i < t.n_pairs → alice_basis_of t i = bob_basis_of t i →
      bob_outcome_of t i = 1 - alice_outcome_of t i ∧ alice_outcome_of t i ≤ 1)
    (hpos : 0 < count_trials t (basis_pair t b b)) :
    calculate_correlation t b b = some (-1) := by
  have hsame : ∀ i, i < t.n_pairs → basis_pair t b b i = true →
      bob_outcome_of t i = 1 - alice_outcome_of t i ∧ alice_outcome_of t i ≤ 1 := by
    intro i hi hp
    simp only [basis_pair, Bool.and_eq_true, beq_iff_eq] at hp
    exact hopp i hi (by omega)
  have h00 : count_trials t (basis_outcome t b b 0 0) = 0 := by
    apply count_trials_eq_zero
    intro i hi
    cases hp : basis_pair t b b i
    · simp [basis_outcome, hp]
    · have h := hsame i hi hp
      have hne : ¬ (alice_outcome_of t i = 0 ∧ bob_outcome_of t i = 0) := by omega
      simpa [basis_outcome, hp, outcome_pair] using hne
  have hrest : count_trials t (basis_rest t b b) = 0 := by
    apply count_trials_eq_zero
    intro i hi
    cases hp : basis_pair t b b i
    · simp [basis_rest, hp]
    · have h := hsame i hi hp
      have hor : (alice_outcome_of t i = 0 ∧ bob_outcome_of t i = 1) ∨
          (alice_outcome_of t i = 1 ∧ bob_outcome_of t i = 0) := by omega
      rcases hor with ⟨h1, h2⟩ | ⟨h1, h2⟩ <;> simp [basis_rest, hp, outcome_pair, h1, h2]
  have hne : count_trials t (basis_pair t b b) ≠ 0 := Nat.pos_iff_ne_zero.mp hpos
  have hsum : count_trials t (basis_pair t b b) =
      count_trials t (basis_outcome t b b 0 1) + count_trials t (basis_outcome t b b 1 0) := by
    have hp := basis_pair_partition t b b (List.range t.n_pairs)
    unfold count_trials at h00 hrest ⊢
    omega
  have hq : (count_trials t (basis_pair t b b) : ℚ) ≠ 0 := by exact_mod_cast hne
  have hsq : (count_trials t (basis_pair t b b) : ℚ) =
      count_trials t (basis_outcome t b b 0 1) + count_trials t (basis_outcome t b b 1 0) := by
    exact_mod_cast hsum
  have e : ∀ T x y : ℚ, T ≠ 0 → T = x + y →
      ((0 : Nat) : ℚ) / T + ((0 : Nat) : ℚ) / T - x / T - y / T = -1 := by
    intro T x y hT hxy
    have e1 : ((0 : Nat) : ℚ) / T + ((0 : Nat) : ℚ) / T - x / T - y / T = -((x + y) / T) := by
      rw [Nat.cast_zero]
      ring
    rw [e1, ← hxy, div_self hT]
  rw [calculate_correlation_eq t hc b b, if_neg hne, h00, hrest, e _ _ _ hq hsq]

/-- C17: when the integer draws lie in their ranges and the real draws in
`[0, 1)`, the history produced by `run_protocol` on a fresh object has, in
every same-basis trial, Bob's outcome equal to `1 -` Alice's outcome;
`estimate_error_rate` on it is `1` when a same-basis trial exists and `0`
otherwise, and `calculate_correlation(2, 2)` is `-1` when a `(2, 2)` trial
exists. -/
theorem generated_same_basis_outcomes_opposite {σ : Type} (D : DoubleArith) (R : RandomSource σ)
    (hI : int_draws_in_range R) (hU : real_draws_in_unit R) (n seed : Nat) :
    ∃ t, run_protocol D R (E91Protocol.construct R n seed) = some t ∧
      (∀ i, i < n → alice_basis_of t i = bob_basis_of t i →
        bob_outcome_of t i = 1 - alice_outcome_of t i ∧ alice_outcome_of t i ≤ 1) ∧
      estimate_error_rate t =
        some (if count_trials t (fun i => alice_basis_of t i == bob_basis_of t i) = 0 then 0
          else 1) ∧
      (0 < count_trials t (basis_pair t 2 2) → calculate_correlation t 2 2 = some (-1)) := by
  obtain ⟨t, hrun, hgen⟩ := run_protocol_generated D R hI n seed
  have hc := generated_upto_complete R n t hgen
  obtain ⟨hn, _, _, _, _, _, hall⟩ := hgen
  have hopp : ∀ i, i < t.n_pairs → alice_basis_of t i = bob_basis_of t i →
      bob_outcome_of t i = 1 - alice_outcome_of t i ∧ alice_outcome_of t i ≤ 1 := by
    intro i hi hab
    have h := hall i (hn ▸ hi)
    exact ⟨h.2.2.2.2.2 hU hab, h.2.2.2.1⟩
  exact ⟨t, hrun, fun i hi => hopp i (hn.symm ▸ hi), opposite_outcomes_error_rate t hc hopp,
    opposite_outcomes_correlation t hc 2 hopp⟩

theorem generated_same_basis_outcomes_opposite_witness :
    int_draws_in_range digit_source ∧ real_draws_in_unit digit_source ∧
      ∃ t, run_protocol exact_arith digit_source (E91Protocol.construct digit_source 1 112) = some t ∧
        (∀ i, i < 1 → alice_basis_of t i = bob_basis_of t i →
          bob_outcome_of t i = 1 - alice_outcome_of t i ∧ alice_outcome_of t i ≤ 1) ∧
        estimate_error_rate t =
          some (if count_trials t (fun i => alice_basis_of t i == bob_basis_of t i) = 0 then 0
            else 1) ∧
        (0 < count_trials t (basis_pair t 2 2) → calculate_correlation t 2 2 = some (-1)) :=
  ⟨digit_source_int_draws, digit_source_real_draws,
    generated_same_basis_outcomes_opposite exact_arith digit_source digit_source_int_draws
      digit_source_real_draws 1 112⟩

theorem for_loop_first_fails {α : Type} (n : Nat) (body : Nat → α → Option α) (start : α)
    (hn : 0 < n) (h : body 0 start = none) : for_loop n body start = none := by
  cases n with
  | zero => exact absurd hn (Nat.lt_irrefl 0)
  | succ k =>
    unfold for_loop
    rw [List.range_succ_eq_map, List.foldlM_cons, h]
    rfl

/-- C18: when the integer draws lie in their ranges, one `run_protocol` on a
fresh object with pair count `n` succeeds and leaves each of the four history
vectors with exactly `n` entries, so every read `v[i]` with `i < n_pairs` is
inside its vector and `sift_key`, `calculate_correlation` and
`estimate_error_rate` return; on the fresh object itself, with `n > 0`, the
first read is outside the (empty) vector and each of the three returns
`none`. -/
theorem history_reads_in_bounds {σ : Type} (D : DoubleArith) (R : RandomSource σ)
    (hI : int_draws_in_range R) (n seed : Nat) :
    (∃ t, run_protocol D R (E91Protocol.construct R n seed) = some t ∧ t.n_pairs = n ∧
        t.alice_bases.length = n ∧ t.bob_bases.length = n ∧
        t.alice_results.length = n ∧ t.bob_results.length = n ∧
        (∀ i, i < t.n_pairs →
          (t.alice_bases[i]?).isSome ∧ (t.bob_bases[i]?).isSome ∧
          (t.alice_results[i]?).isSome ∧ (t.bob_results[i]?).isSome) ∧
        (sift_key t).isSome ∧ (∀ a b, (calculate_correlation t a b).isSome) ∧
        (estimate_error_rate t).isSome) ∧
      (0 < n →
        (E91Protocol.construct R n seed).alice_bases[0]? = none ∧
        sift_key (E91Protocol.construct R n seed) = none ∧
        (∀ a b, calculate_correlation (E91Protocol.construct R n seed) a b = none) ∧
        estimate_error_rate (E91Protocol.construct R n seed) = none) := by
  constructor
  · obtain ⟨t, hrun, hgen⟩ := run_protocol_generated D R hI n seed
    have hc := generated_upto_complete R n t hgen
    obtain ⟨hn, _, l1, l2, l3, l4, _⟩ := hgen
    refine ⟨t, hrun, hn, l1, l2, l3, l4, ?_, ?_, ?_, ?_⟩
    · intro i hi
      rw [hn] at hi
      rw [List.getElem?_eq_getElem (l1.symm ▸ hi), List.getElem?_eq_getElem (l2.symm ▸ hi),
        List.getElem?_eq_getElem (l3.symm ▸ hi), List.getElem?_eq_getElem (l4.symm ▸ hi)]
      exact ⟨rfl, rfl, rfl, rfl⟩
    · rw [sift_key, sift_key_loop_eq t hc]
      rfl
    · intro a b
      rw [calculate_correlation_eq t hc a b]
      rfl
    · rw [estimate_error_rate_eq t hc]
      rfl
  · intro hn
    refine ⟨rfl, ?_, ?_, ?_⟩
    · have h : ∀ acc, sift_key_body (E91Protocol.construct R n seed) 0 acc = none :=
        fun _ => rfl
      have hl : sift_key_loop (E91Protocol.construct R n seed) = none :=
        for_loop_first_fails n _ _ hn (h _)
      unfold sift_key
      rw [hl]
      rfl
    · intro a b
      have h : ∀ c, calculate_correlation_body (E91Protocol.construct R n seed) a b 0 c = none :=
        fun _ => rfl
      have hl : calculate_correlation_loop (E91Protocol.construct R n seed) a b = none :=
        for_loop_first_fails n _ _ hn (h _)
      unfold calculate_correlation
      rw [hl]
      rfl
    · have h : ∀ acc, estimate_error_rate_body (E91Protocol.construct R n seed) 0 acc = none :=
        fun _ => rfl
      have hl : estimate_error_rate_loop (E91Protocol.construct R n seed) = none :=
        for_loop_first_fails n _ _ hn (h _)
      unfold estimate_error_rate
      rw [hl]
      rfl

theorem history_reads_in_bounds_witness :
    int_draws_in_range digit_source ∧
      ((∃ t, run_protocol exact_arith digit_source (E91Protocol.construct digit_source 2 3021) = some t ∧
          t.n_pairs = 2 ∧
          t.alice_bases.length = 2 ∧ t.bob_bases.length = 2 ∧
          t.alice_results.length = 2 ∧ t.bob_results.length = 2 ∧
          (∀ i, i < t.n_pairs →
            (t.alice_bases[i]?).isSome ∧ (t.bob_bases[i]?).isSome ∧
            (t.alice_results[i]?).isSome ∧ (t.bob_results[i]?).isSome) ∧
          (sift_key t).isSome ∧ (∀ a b, (calculate_correlation t a b).isSome) ∧
          (estimate_error_rate t).isSome) ∧
        (0 < 2 →
          (E91Protocol.construct digit_source 2 3021).alice_bases[0]? = none ∧
          sift_key (E91Protocol.construct digit_source 2 3021) = none ∧
          (∀ a b, calculate_correlation (E91Protocol.construct digit_source 2 3021) a b = none) ∧
          estimate_error_rate (E91Protocol.construct digit_source 2 3021) = none)) :=
  ⟨digit_source_int_draws, history_reads_in_bounds exact_arith digit_source digit_source_int_draws 2 3021⟩

/-! ## The history as a function of the seed and the pair count -/

theorem for_loop_succ_front {α : Type} (n : Nat) (body : Nat → α → Option α) (start : α) :
    for_loop (n + 1) body start =
      (body 0 start).bind (fun s => for_loop n (fun i => body (i + 1)) s) := by
  unfold for_loop
  rw [List.range_succ_eq_map, List.foldlM_cons]
  cases body 0 start with
  | none => rfl
  | some s =>
    show List.foldlM (fun acc i => body i acc) s (List.map Nat.succ (List.range n)) = _
    rw [List.foldlM_map]
    rfl

theorem run_protocol_body_generate {σ : Type} (D : DoubleArith) (R : RandomSource σ)
    (hR : int_draws_in_range R) (i : Nat) (s : E91Protocol σ) :
    run_protocol_body D R i s =
      some { s with
        rng := (generate_trial D R s.rng).2
        alice_bases := s.alice_bases ++ [(generate_trial D R s.rng).1.aliceBasis]
        bob_bases := s.bob_bases ++ [(generate_trial D R s.rng).1.bobBasis]
        alice_results := s.alice_results ++ [(generate_trial D R s.rng).1.aliceOutcome]
        bob_results := s.bob_results ++ [(generate_trial D R s.rng).1.bobOutcome] } := by
  rw [run_protocol_body_inside D R hR i s]
  rfl

theorem run_protocol_loop_generate {σ : Type} (D : DoubleArith) (R : RandomSource σ)
    (hR : int_draws_in_range R) (k : Nat) :
    ∀ s : E91Protocol σ, ∃ t, for_loop k (run_protocol_body D R) s = some t ∧
      t.alice_bases = s.alice_bases ++ (generate D R k s.rng).map TrialRecord.aliceBasis ∧
      t.bob_bases = s.bob_bases ++ (generate D R k s.rng).map TrialRecord.bobBasis ∧
      t.alice_results =
        s.alice_results ++ (generate D R k s.rng).map TrialRecord.aliceOutcome ∧
      t.bob_results = s.bob_results ++ (generate D R k s.rng).map TrialRecord.bobOutcome := by
  induction k with
  | zero =>
    intro s
    exact ⟨s, rfl, by simp [generate], by simp [generate], by simp [generate],
      by simp [generate]⟩
  | succ k ih =>
    intro s
    have hb : (fun i => run_protocol_body D R (i + 1)) = run_protocol_body D R := rfl
    rw [for_loop_succ_front, run_protocol_body_generate D R hR 0 s, Option.some_bind, hb]
    obtain ⟨t, ht, e1, e2, e3, e4⟩ := ih
      { s with
        rng := (generate_trial D R s.rng).2
        alice_bases := s.alice_bases ++ [(generate_trial D R s.rng).1.aliceBasis]
        bob_bases := s.bob_bases ++ [(generate_trial D R s.rng).1.bobBasis]
        alice_results := s.alice_results ++ [(generate_trial D R s.rng).1.aliceOutcome]
        bob_results := s.bob_results ++ [(generate_trial D R s.rng).1.bobOutcome] }
    refine ⟨t, ht, ?_, ?_, ?_, ?_⟩
    · rw [e1]
      simp [generate]
    · rw [e2]
      simp [generate]
    · rw [e3]
      simp [generate]
    · rw [e4]
      simp [generate]

/-- C13: when the integer draws lie in their ranges, `run_protocol` on a freshly
constructed object succeeds and records exactly the trial sequence
`generate numPairs` made from the generator state `seed` gives, a function of
the seed and the pair count alone; so two fresh objects with the same seed and
pair count end with the same four history vectors. -/
theorem run_protocol_deterministic {σ : Type} (D : DoubleArith) (R : RandomSource σ)
    (hI : int_draws_in_range R) (n seed : Nat) (s1 s2 : E91Protocol σ)
    (h1 : s1 = E91Protocol.construct R n seed) (h2 : s2 = E91Protocol.construct R n seed) :
    ∃ t1 t2, run_protocol D R s1 = some t1 ∧ run_protocol D R s2 = some t2 ∧
      t1.alice_bases = (generate D R n (R.seed seed)).map TrialRecord.aliceBasis ∧
      t1.bob_bases = (generate D R n (R.seed seed)).map TrialRecord.bobBasis ∧
      t1.alice_results = (generate D R n (R.seed seed)).map TrialRecord.aliceOutcome ∧
      t1.bob_results = (generate D R n (R.seed seed)).map TrialRecord.bobOutcome ∧
      t2.alice_bases = t1.alice_bases ∧ t2.bob_bases = t1.bob_bases ∧
      t2.alice_results = t1.alice_results ∧ t2.bob_results = t1.bob_results := by
  obtain ⟨t, ht, e1, e2, e3, e4⟩ :=
    run_protocol_loop_generate D R hI n (E91Protocol.construct R n seed)
  subst h1
  subst h2
  exact ⟨t, t, ht, ht, by simpa [E91Protocol.construct] using e1,
    by simpa [E91Protocol.construct] using e2, by simpa [E91Protocol.construct] using e3,
    by simpa [E91Protocol.construct] using e4, rfl, rfl, rfl, rfl⟩

theorem run_protocol_deterministic_witness :
    int_draws_in_range digit_source ∧
      ∃ t1 t2,
        run_protocol exact_arith digit_source (E91Protocol.construct digit_source 2 3021) =
          some t1 ∧
        run_protocol exact_arith digit_source (E91Protocol.construct digit_source 2 3021) =
          some t2 ∧
        t1.alice_bases =
          (generate exact_arith digit_source 2 (digit_source.seed 3021)).map
            TrialRecord.aliceBasis ∧
        t1.bob_bases =
          (generate exact_arith digit_source 2 (digit_source.seed 3021)).map
            TrialRecord.bobBasis ∧
        t1.alice_results =
          (generate exact_arith digit_source 2 (digit_source.seed 3021)).map
            TrialRecord.aliceOutcome ∧
        t1.bob_results =
          (generate exact_arith digit_source 2 (digit_source.seed 3021)).map
            TrialRecord.bobOutcome ∧
        t2.alice_bases = t1.alice_bases ∧ t2.bob_bases = t1.bob_bases ∧
        t2.alice_results = t1.alice_results ∧ t2.bob_results = t1.bob_results :=
  ⟨digit_source_int_draws,
    run_protocol_deterministic exact_arith digit_source digit_source_int_draws 2 3021
      (E91Protocol.construct digit_source 2 3021) (E91Protocol.construct digit_source 2 3021)
      rfl rfl⟩

/-! ## The constructor and the pair count -/

theorem construct_call_within {σ : Type} (max_size : Nat) (R : RandomSource σ)
    (n seed : Nat) (h : n ≤ max_size) :
    construct_call max_size R n seed = Except.ok (E91Protocol.construct R n seed) := by
  simp [construct_call, reserve, Nat.not_lt.mpr h]
  rfl

theorem construct_call_beyond {σ : Type} (max_size : Nat) (R : RandomSource σ)
    (n seed : Nat) (h : max_size < n) :
    construct_call max_size R n seed = Except.error Thrown.length_error := by
  simp [construct_call, reserve, h]
  rfl

theorem to_idx_negative (v : Int) (hlo : -2 ^ 63 ≤ v) (hneg : v < 0) :
    (to_idx v : Int) = v + 2 ^ 64 ∧ 2 ^ 63 ≤ to_idx v := by
  have e : v % 2 ^ 64 = v + 2 ^ 64 := by omega
  have hc : (to_idx v : Int) = v + 2 ^ 64 := by
    unfold to_idx
    rw [e]
    exact Int.toNat_of_nonneg (by omega)
  exact ⟨hc, by omega⟩

/-- C12, as stated, fails: the signed count `-1` reaches the constructor wrapped
to `2 ^ 64 - 1`, and what refuses it is the `std::length_error` of the first
`reserve`, not an invalid-argument error. -/
theorem negative_count_not_invalid_argument :
    to_idx (-1) = 2 ^ 64 - 1 ∧
      construct_signed (2 ^ 60) digit_source (-1) 0 = Except.error Thrown.length_error ∧
      construct_signed (2 ^ 60) digit_source (-1) 0 ≠ Except.error Thrown.invalid_argument := by
  have h1 : to_idx (-1) = 2 ^ 64 - 1 := by decide
  have h2 : construct_signed (2 ^ 60) digit_source (-1) 0 =
      Except.error Thrown.length_error :=
    construct_call_beyond (2 ^ 60) digit_source (to_idx (-1)) 0 (by rw [h1]; norm_num)
  refine ⟨h1, h2, ?_⟩
  rw [h2]
  intro h
  cases h

/-- C12, amended: the constructor validates nothing itself.  A negative signed
count `v` (of at most 64 bits) is converted to the `idx` value `v + 2 ^ 64`;
as the vectors' `max_size` is below `2 ^ 63`, the first `reserve` refuses that
count with `std::length_error`.  A count that does not exceed `max_size` is
accepted and stored unchanged. -/
theorem negative_count_wraps_then_length_error {σ : Type} (max_size : Nat)
    (R : RandomSource σ) (v : Int) (seed : Nat)
    (hmax : max_size < 2 ^ 63) (hlo : -2 ^ 63 ≤ v) (hneg : v < 0) :
    (to_idx v : Int) = v + 2 ^ 64 ∧
      construct_signed max_size R v seed = Except.error Thrown.length_error ∧
      ∀ n, n ≤ max_size →
        construct_call max_size R n seed = Except.ok (E91Protocol.construct R n seed) ∧
        (E91Protocol.construct R n seed).n_pairs = n := by
  obtain ⟨h1, h2⟩ := to_idx_negative v hlo hneg
  exact ⟨h1, construct_call_beyond max_size R (to_idx v) seed (by omega),
    fun n hn => ⟨construct_call_within max_size R n seed hn, rfl⟩⟩

theorem negative_count_wraps_then_length_error_witness :
    2 ^ 60 < 2 ^ 63 ∧ (-2 ^ 63 : Int) ≤ -1 ∧ (-1 : Int) < 0 ∧
      (to_idx (-1) : Int) = -1 + 2 ^ 64 ∧
      construct_signed (2 ^ 60) digit_source (-1) 0 = Except.error Thrown.length_error ∧
      ∀ n, n ≤ 2 ^ 60 →
        construct_call (2 ^ 60) digit_source n 0 =
            Except.ok (E91Protocol.construct digit_source n 0) ∧
          (E91Protocol.construct digit_source n 0).n_pairs = n :=
  ⟨by norm_num, by norm_num, by norm_num,
    negative_count_wraps_then_length_error (2 ^ 60) digit_source (-1) 0
      (by norm_num) (by norm_num) (by norm_num)⟩

/-! ## Frame properties -/

theorem for_loop_on_locals {σ L : Type} (f : E91Protocol σ → Nat → L → Option L)
    (n : Nat) (s : E91Protocol σ) (l0 : L) :
    for_loop n
        (fun i (st : Activation σ L) =>
          (f st.self i st.locals).map (fun c => { st with locals := c }))
        ⟨s, l0⟩ =
      (for_loop n (f s) l0).map (fun l => ⟨s, l⟩) := by
  induction n with
  | zero => rfl
  | succ k ih =>
    rw [for_loop_succ, ih, for_loop_succ]
    cases for_loop k (f s) l0 with
    | none => rfl
    | some l =>
      simp only [Option.map_some', Option.some_bind]

theorem count_outcomes_step_eq {σ : Type} (i : Nat) (st : Activation σ Counts) :
    count_outcomes_step i st =
      (count_outcomes st.self i st.locals).map (fun c => { st with locals := c }) := by
  unfold count_outcomes_step count_outcomes
  cases and_then (at_eq st.self.alice_results i 0) (at_eq st.self.bob_results i 0) with
  | none => rfl
  | some b1 =>
    cases b1 with
    | true => rfl
    | false =>
      cases and_then (at_eq st.self.alice_results i 0) (at_eq st.self.bob_results i 1) with
      | none => rfl
      | some b2 =>
        cases b2 with
        | true => rfl
        | false =>
          cases and_then (at_eq st.self.alice_results i 1) (at_eq st.self.bob_results i 0) with
          | none => rfl
          | some b3 => cases b3 <;> rfl

theorem calculate_correlation_step_eq {σ : Type} (a b i : Nat) (st : Activation σ Counts) :
    calculate_correlation_step a b i st =
      (calculate_correlation_body st.self a b i st.locals).map
        (fun c => { st with locals := c }) := by
  unfold calculate_correlation_step calculate_correlation_body
  rw [count_outcomes_step_eq]
  cases and_then (at_eq st.self.alice_bases i a) (at_eq st.self.bob_bases i b) with
  | none => rfl
  | some b0 =>
    cases b0 with
    | false => rfl
    | true => cases count_outcomes st.self i st.locals <;> rfl

theorem estimate_error_rate_step_eq {σ : Type} (i : Nat) (st : Activation σ (Nat × Nat)) :
    estimate_error_rate_step i st =
      (estimate_error_rate_body st.self i st.locals).map (fun c => { st with locals := c }) := by
  unfold estimate_error_rate_step estimate_error_rate_body
  cases at_eq_at st.self.alice_bases st.self.bob_bases i with
  | none => rfl
  | some b0 =>
    cases b0 with
    | false => rfl
    | true =>
      cases at_eq_at st.self.alice_results st.self.bob_results i with
      | none => rfl
      | some b1 => cases b1 <;> rfl

theorem calculate_correlation_call_eq {σ : Type} (s : E91Protocol σ) (a b : Nat) :
    calculate_correlation_call s a b = (calculate_correlation s a b).map (fun e => (e, s)) := by
  have h := for_loop_on_locals (fun o i c => calculate_correlation_body o a b i c)
    s.n_pairs s ⟨0, 0, 0, 0, 0⟩
  have hf : calculate_correlation_step a b =
      fun i (st : Activation σ Counts) =>
        (calculate_correlation_body st.self a b i st.locals).map
          (fun c => { st with locals := c }) :=
    funext fun i => funext fun st => calculate_correlation_step_eq a b i st
  have hl : for_loop s.n_pairs (calculate_correlation_step a b) ⟨s, ⟨0, 0, 0, 0, 0⟩⟩ =
      (calculate_correlation_loop s a b).map (fun l => ⟨s, l⟩) := by
    rw [hf]
    exact h
  unfold calculate_correlation_call calculate_correlation
  rw [hl]
  cases calculate_correlation_loop s a b with
  | none => rfl
  | some c =>
    by_cases ht : c.total = 0
    · simp [ht]
    · simp [ht, double_div]

theorem estimate_error_rate_call_eq {σ : Type} (s : E91Protocol σ) :
    estimate_error_rate_call s = (estimate_error_rate s).map (fun e => (e, s)) := by
  have h := for_loop_on_locals (fun o i c => estimate_error_rate_body o i c)
    s.n_pairs s (0, 0)
  have hf : estimate_error_rate_step =
      fun i (st : Activation σ (Nat × Nat)) =>
        (estimate_error_rate_body st.self i st.locals).map (fun c => { st with locals := c }) :=
    funext fun i => funext fun st => estimate_error_rate_step_eq i st
  have hl : for_loop s.n_pairs estimate_error_rate_step ⟨s, (0, 0)⟩ =
      (estimate_error_rate_loop s).map (fun l => ⟨s, l⟩) := by
    rw [hf]
    exact h
  unfold estimate_error_rate_call estimate_error_rate
  rw [hl]
  cases estimate_error_rate_loop s with
  | none => rfl
  | some c =>
    by_cases ht : c.2 = 0
    · simp [ht]
    · simp [ht, double_div]

theorem perform_bell_test_call_eq {σ : Type} (s : E91Protocol σ) :
    perform_bell_test_call s = (perform_bell_test s).map (fun S => (S, s)) := by
  unfold perform_bell_test_call perform_bell_test
  simp only [calculate_correlation_call_eq]
  cases calculate_correlation s 0 1 with
  | none => rfl
  | some e1 =>
    simp only [Option.map_some', Option.bind_eq_bind, Option.some_bind]
    cases calculate_correlation s 0 2 with
    | none => rfl
    | some e2 =>
      simp only [Option.map_some', Option.some_bind]
      cases calculate_correlation s 2 1 with
      | none => rfl
      | some e3 =>
        simp only [Option.map_some', Option.some_bind]
        cases calculate_correlation s 2 2 with
        | none => rfl
        | some e4 => rfl

/-- C14: for every state, whatever `calculate_correlation`,
`perform_bell_test` and `estimate_error_rate` return, the object they leave is
the object they were called on (history, key, pair count and generator), and
the value is the one computed from that object; two calls of
`perform_bell_test` in a row return the same `S` twice, and calling
`perform_bell_test` and `estimate_error_rate` in either order gives the same
two values and the same final object.  On a complete trial history all three
calls return. -/
theorem statistics_leave_state_unchanged {σ : Type} (s : E91Protocol σ) :
    (∀ a b r, calculate_correlation_call s a b = some r →
        r.2 = s ∧ calculate_correlation s a b = some r.1) ∧
      (∀ r, perform_bell_test_call s = some r → r.2 = s ∧ perform_bell_test s = some r.1) ∧
      (∀ r, estimate_error_rate_call s = some r →
        r.2 = s ∧ estimate_error_rate s = some r.1) ∧
      ((perform_bell_test_call s).bind fun r1 =>
          (perform_bell_test_call r1.2).map fun r2 => (r1.1, r2.1, r2.2)) =
        (perform_bell_test_call s).map (fun r => (r.1, r.1, s)) ∧
      ((perform_bell_test_call s).bind fun r1 =>
          (estimate_error_rate_call r1.2).map fun r2 => (r1.1, r2.1, r2.2)) =
        ((estimate_error_rate_call s).bind fun r1 =>
          (perform_bell_test_call r1.2).map fun r2 => (r2.1, r1.1, r2.2)) ∧
      (complete_history s →
        ∃ S e : ℚ, perform_bell_test_call s = some (S, s) ∧
          estimate_error_rate_call s = some (e, s) ∧
          ∀ a b, ∃ c : ℚ, calculate_correlation_call s a b = some (c, s)) := by
  refine ⟨?_, ?_, ?_, ?_, ?_, ?_⟩
  · intro a b r hr
    rw [calculate_correlation_call_eq] at hr
    cases hc : calculate_correlation s a b with
    | none => rw [hc] at hr; cases hr
    | some e =>
      rw [hc] at hr
      cases hr
      exact ⟨rfl, rfl⟩
  · intro r hr
    rw [perform_bell_test_call_eq] at hr
    cases hc : perform_bell_test s with
    | none => rw [hc] at hr; cases hr
    | some e =>
      rw [hc] at hr
      cases hr
      exact ⟨rfl, rfl⟩
  · intro r hr
    rw [estimate_error_rate_call_eq] at hr
    cases hc : estimate_error_rate s with
    | none => rw [hc] at hr; cases hr
    | some e =>
      rw [hc] at hr
      cases hr
      exact ⟨rfl, rfl⟩
  · rw [perform_bell_test_call_eq]
    cases hc : perform_bell_test s with
    | none => rfl
    | some S =>
      simp only [Option.map_some', Option.some_bind]
      rw [perform_bell_test_call_eq, hc]
      rfl
  · rw [perform_bell_test_call_eq, estimate_error_rate_call_eq]
    cases hc : perform_bell_test s with
    | none =>
      cases he : estimate_error_rate s with
      | none => rfl
      | some e =>
        simp only [Option.map_some', Option.some_bind, Option.map_none', Option.none_bind]
        rw [perform_bell_test_call_eq, hc]
        rfl
    | some S =>
      simp only [Option.map_some', Option.some_bind]
      rw [estimate_error_rate_call_eq]
      cases he : estimate_error_rate s with
      | none => rfl
      | some e =>
        simp only [Option.map_some', Option.some_bind]
        rw [perform_bell_test_call_eq, hc]
        rfl
  · intro h
    obtain ⟨e, he⟩ : ∃ e : ℚ, estimate_error_rate s = some e :=
      ⟨_, estimate_error_rate_eq s h⟩
    have hS : ∃ S : ℚ, perform_bell_test s = some S := by
      unfold perform_bell_test
      rw [calculate_correlation_eq s h 0 1, calculate_correlation_eq s h 0 2,
        calculate_correlation_eq s h 2 1, calculate_correlation_eq s h 2 2]
      exact ⟨_, rfl⟩
    obtain ⟨S, hS⟩ := hS
    refine ⟨S, e, by rw [perform_bell_test_call_eq, hS]; rfl,
      by rw [estimate_error_rate_call_eq, he]; rfl, ?_⟩
    intro a b
    exact ⟨_, by rw [calculate_correlation_call_eq, calculate_correlation_eq s h a b]; rfl⟩

/-- C15: on a complete trial history `sift_key` returns a state that differs
from the one it started from in `shared_key` only; the key it leaves is the
same whatever `shared_key` held before, and a second `sift_key` leaves the
state of the first unchanged. -/
theorem sift_key_replaces_key {σ : Type} (s : E91Protocol σ) (h : complete_history s) :
    ∃ t, sift_key s = some t ∧ sift_key t = some t ∧
      (∀ key : List Bool, sift_key { s with shared_key := key } = some t) ∧
      t.rng = s.rng ∧ t.n_pairs = s.n_pairs ∧
      t.alice_bases = s.alice_bases ∧ t.bob_bases = s.bob_bases ∧
      t.alice_results = s.alice_results ∧ t.bob_results = s.bob_results := by
  have hk : ∀ key : List Bool, sift_key_loop { s with shared_key := key } = sift_key_loop s :=
    fun _ => rfl
  obtain ⟨r, hr⟩ : ∃ r, sift_key_loop s = some r := ⟨_, sift_key_loop_eq s h⟩
  refine ⟨{ s with shared_key := r.1 }, by rw [sift_key, hr]; rfl, ?_, ?_,
    rfl, rfl, rfl, rfl, rfl, rfl⟩
  · rw [sift_key, hk, hr]
    rfl
  · intro key
    rw [sift_key, hk, hr]
    rfl

theorem sift_key_replaces_key_witness :
    complete_history sample_history ∧
      ∃ t, sift_key sample_history = some t ∧ sift_key t = some t ∧
        (∀ key : List Bool, sift_key { sample_history with shared_key := key } = some t) ∧
        t.rng = sample_history.rng ∧ t.n_pairs = sample_history.n_pairs ∧
        t.alice_bases = sample_history.alice_bases ∧ t.bob_bases = sample_history.bob_bases ∧
        t.alice_results = sample_history.alice_results ∧
        t.bob_results = sample_history.bob_results :=
  ⟨⟨rfl, rfl, rfl, rfl⟩, sift_key_replaces_key sample_history ⟨rfl, rfl, rfl, rfl⟩⟩

/-! ## The range of `S` -/

theorem calculate_correlation_bounded {σ : Type} (s : E91Protocol σ)
    (h : complete_history s) (a b : Nat) :
    ∃ e : ℚ, calculate_correlation s a b = some e ∧ -1 ≤ e ∧ e ≤ 1 := by
  refine ⟨_, calculate_correlation_eq s h a b, ?_⟩
  by_cases ht : count_trials s (basis_pair s a b) = 0
  · rw [if_pos ht]
    constructor <;> norm_num
  · rw [if_neg ht]
    exact correlation_quotient_bounds _ _ _ _ _ ht (basis_pair_partition s a b _)

theorem chsh_extreme_value : perform_bell_test chsh_extreme_history = some 4 := by
  have hc : complete_history chsh_extreme_history := ⟨rfl, rfl, rfl, rfl⟩
  unfold perform_bell_test
  rw [calculate_correlation_eq _ hc 0 1, calculate_correlation_eq _ hc 0 2,
    calculate_correlation_eq _ hc 2 1, calculate_correlation_eq _ hc 2 2]
  have c1 : count_trials chsh_extreme_history (basis_pair chsh_extreme_history 0 1) = 1 := by
    decide
  have c2 : count_trials chsh_extreme_history (basis_pair chsh_extreme_history 0 2) = 1 := by
    decide
  have c3 : count_trials chsh_extreme_history (basis_pair chsh_extreme_history 2 1) = 1 := by
    decide
  have c4 : count_trials chsh_extreme_history (basis_pair chsh_extreme_history 2 2) = 1 := by
    decide
  have k1 : ∀ a b x y, count_trials chsh_extreme_history
      (basis_outcome chsh_extreme_history a b x y) =
        (List.range 4).countP (basis_outcome chsh_extreme_history a b x y) := fun _ _ _ _ => rfl
  have k2 : ∀ a b, count_trials chsh_extreme_history (basis_rest chsh_extreme_history a b) =
      (List.range 4).countP (basis_rest chsh_extreme_history a b) := fun _ _ => rfl
  have d1 : (List.range 4).countP (basis_outcome chsh_extreme_history 0 1 0 0) = 0 := by decide
  have d2 : (List.range 4).countP (basis_outcome chsh_extreme_history 0 1 0 1) = 0 := by decide
  have d3 : (List.range 4).countP (basis_outcome chsh_extreme_history 0 1 1 0) = 0 := by decide
  have d4 : (List.range 4).countP (basis_rest chsh_extreme_history 0 1) = 1 := by decide
  have d5 : (List.range 4).countP (basis_outcome chsh_extreme_history 0 2 0 0) = 0 := by decide
  have d6 : (List.range 4).countP (basis_outcome chsh_extreme_history 0 2 0 1) = 1 := by decide
  have d7 : (List.range 4).countP (basis_outcome chsh_extreme_history 0 2 1 0) = 0 := by decide
  have d8 : (List.range 4).countP (basis_rest chsh_extreme_history 0 2) = 0 := by decide
  have d9 : (List.range 4).countP (basis_outcome chsh_extreme_history 2 1 0 0) = 1 := by decide
  have d10 : (List.range 4).countP (basis_outcome chsh_extreme_history 2 1 0 1) = 0 := by decide
  have d11 : (List.range 4).countP (basis_outcome chsh_extreme_history 2 1 1 0) = 0 := by decide
  have d12 : (List.range 4).countP (basis_rest chsh_extreme_history 2 1) = 0 := by decide
  have d13 : (List.range 4).countP (basis_outcome chsh_extreme_history 2 2 0 0) = 0 := by decide
  have d14 : (List.range 4).countP (basis_outcome chsh_extreme_history 2 2 0 1) = 0 := by decide
  have d15 : (List.range 4).countP (basis_outcome chsh_extreme_history 2 2 1 0) = 0 := by decide
  have d16 : (List.range 4).countP (basis_rest chsh_extreme_history 2 2) = 1 := by decide
  simp only [c1, c2, c3, c4, k1, k2, d1, d2, d3, d4, d5, d6, d7, d8, d9, d10, d11, d12, d13,
    d14, d15, d16]
  norm_num

/-- C19: on a complete trial history `perform_bell_test` returns a value `S`
with `0 <= S <= 4`; the bound `4` is attained, by the history with one
agreeing trial for each of `(0,1)`, `(2,1)`, `(2,2)` and one disagreeing trial
for `(0,2)`. -/
theorem perform_bell_test_range {σ : Type} (s : E91Protocol σ) (h : complete_history s) :
    (∃ S : ℚ, perform_bell_test s = some S ∧ 0 ≤ S ∧ S ≤ 4) ∧
      complete_history chsh_extreme_history ∧
      perform_bell_test chsh_extreme_history = some 4 := by
  obtain ⟨e1, h1, l1, u1⟩ := calculate_correlation_bounded s h 0 1
  obtain ⟨e2, h2, l2, u2⟩ := calculate_correlation_bounded s h 0 2
  obtain ⟨e3, h3, l3, u3⟩ := calculate_correlation_bounded s h 2 1
  obtain ⟨e4, h4, l4, u4⟩ := calculate_correlation_bounded s h 2 2
  refine ⟨⟨|e1 - e2 + e3 + e4|, ?_, abs_nonneg _, ?_⟩, ⟨rfl, rfl, rfl, rfl⟩, chsh_extreme_value⟩
  · unfold perform_bell_test
    rw [h1, h2, h3, h4]
    rfl
  · rw [abs_le]
    constructor <;> linarith

theorem perform_bell_test_range_witness :
    complete_history sample_history ∧
      (∃ S : ℚ, perform_bell_test sample_history = some S ∧ 0 ≤ S ∧ S ≤ 4) ∧
      complete_history chsh_extreme_history ∧
      perform_bell_test chsh_extreme_history = some 4 :=
  ⟨⟨rfl, rfl, rfl, rfl⟩, perform_bell_test_range sample_history ⟨rfl, rfl, rfl, rfl⟩⟩

end E91
